import Mathlib

/-!
Shallow embedding of the `gensfx` sound-effect engine
(`src/soundforge/schema.py`, `renderer.py`, `util_wav.py`, `paths.py`).

Python floats are modelled as exact rationals (`ℚ`); the transcendental
functions (`math.sin`, `math.exp`, `**`, `math.pi`) and the Mersenne-Twister
stream of `random.Random` are abstracted into an `Ops` record, so every
theorem quantifies over all interpretations of those functions unless it
evaluates a concrete witness, which uses the `ratOpsDemo` instance below.
Fallible Python code (attribute access on `None`, `TypeError` on `None`
operands, division by a zero modulus, `max()` of an empty sequence,
`buffer[0]` on an empty ring buffer) is modelled with `Option`: `none`
means the Python call raises.
-/

namespace SoundForge

/-- Python `int(x)` for a float, truncation toward zero, as an integer. -/
def pyTruncZ (q : ℚ) : ℤ :=
  if 0 ≤ q then ⌊q⌋ else -⌊-q⌋

/-- Python `int(x)` for a nonnegative float, used for sample counts. -/
def pyInt (q : ℚ) : ℕ :=
  (pyTruncZ q).toNat

/-- Python float `%` with a positive modulus: `x - m*floor(x/m)`. -/
def floatMod (x m : ℚ) : ℚ :=
  x - m * ⌊x / m⌋

/-- A value handed to the path resolver (Streamlit widgets produce
floats/ints, booleans and strings; Python ints and floats are merged
into one rational constructor). -/
inductive Value where
  | num (q : ℚ)
  | bool (b : Bool)
  | str (s : String)
deriving DecidableEq, Repr

/-- `schema.py` `Waveform(str, Enum)`.  `paths.py` assigns the raw widget
value to the `waveform` field without validation; a string equal to one of
the four enum values compares equal to the enum member in Python
(`str`-enum), so it is normalised to the matching constructor, and every
other runaway value is kept in `other` (it matches no branch of
`generate_waveform`, exactly like an unknown string in Python). -/
inductive Waveform where
  | sine
  | triangle
  | square
  | saw
  | other (v : Value)
deriving DecidableEq, Repr

inductive Curve where
  | linear
  | exponential
deriving DecidableEq, Repr

inductive NoiseColor where
  | white
  | pink
deriving DecidableEq, Repr

inductive ImpulseKind where
  | click
  | tap
  | metal_ping
deriving DecidableEq, Repr

inductive EnvelopeShape where
  | exp
  | lin
  | adsr
deriving DecidableEq, Repr

inductive FilterType where
  | lp1
  | hp1
  | biquad_lp
  | biquad_hp
  | biquad_bp
  | notch
deriving DecidableEq, Repr

inductive FXType where
  | softclip
  | bitcrush
  | delay
  | normalize
deriving DecidableEq, Repr

inductive LayerType where
  | osc
  | chirp
  | fm
  | noise
  | impulse
deriving DecidableEq, Repr

inductive ParamKind where
  | slider
  | select
  | checkbox
deriving DecidableEq, Repr

structure Harmonic where
  mul : ℚ
  amp : ℚ
deriving DecidableEq, Repr

structure Envelope where
  attack : ℚ
  decay : ℚ
  sustain : Option ℚ
  release : Option ℚ
  shape : EnvelopeShape
deriving DecidableEq, Repr

structure Modulation where
  tremolo_hz : ℚ
  tremolo_depth : ℚ
  pitch_lfo_hz : ℚ
  pitch_lfo_depth : ℚ
deriving DecidableEq, Repr

structure Filter where
  type : FilterType
  cutoff : ℚ
  q : ℚ
  cutoff_end : Option ℚ
  curve : Curve
deriving DecidableEq, Repr

structure OscParams where
  waveform : Waveform
  freq : ℚ
  detune : ℚ
  harmonics : Option (List Harmonic)
deriving DecidableEq, Repr

structure ChirpParams where
  waveform : Waveform
  f_start : ℚ
  f_end : ℚ
  curve : Curve
  vibrato_hz : ℚ
  vibrato_depth : ℚ
  harmonics : Option (List Harmonic)
deriving DecidableEq, Repr

structure FMParams where
  carrier_freq : ℚ
  mod_freq : ℚ
  index : ℚ
  brightness : ℚ
deriving DecidableEq, Repr

structure NoiseParams where
  color : NoiseColor
  cutoff_start : Option ℚ
  cutoff_end : Option ℚ
  cutoff_curve : Curve
deriving DecidableEq, Repr

structure ImpulseParams where
  kind : ImpulseKind
  width : ℚ
  tone_freq : Option ℚ
deriving DecidableEq, Repr

structure Layer where
  id : String
  type : LayerType
  amp : ℚ
  pan : ℚ
  env : Envelope
  mod : Option Modulation
  filter : Option (List Filter)
  phase : ℚ
  osc : Option OscParams
  chirp : Option ChirpParams
  fm : Option FMParams
  noise : Option NoiseParams
  impulse : Option ImpulseParams
deriving DecidableEq, Repr

/-- `FXParams`: a bag of optional fields; `steps`/`hold_samples` are Python
ints (mutation can push them out of the validated range, so ℤ). -/
structure FXParams where
  drive : Option ℚ
  steps : Option ℤ
  hold_samples : Option ℤ
  time_ms : Option ℚ
  feedback : Option ℚ
  mix : Option ℚ
  target_peak : Option ℚ
deriving DecidableEq, Repr

structure FX where
  type : FXType
  enabled : Bool
  params : FXParams
deriving DecidableEq, Repr

/-- `Param.default : Union[float, bool, str]`. -/
inductive PDefault where
  | num (q : ℚ)
  | bool (b : Bool)
  | str (s : String)
deriving DecidableEq, Repr

structure Param where
  id : String
  label : String
  kind : ParamKind
  path : String
  min : Option ℚ
  max : Option ℚ
  step : Option ℚ
  default : Option PDefault
  options : Option (List String)
deriving DecidableEq, Repr

structure GlobalSettings where
  amp : ℚ
  normalize : Bool
deriving DecidableEq, Repr

/-- `SoundSpec`.  The `version` field is the literal `"soundspec-1"` after
validation and carries no information, so it is not stored; the validator
checks it and the serializer re-emits it. -/
structure SoundSpec where
  name : String
  description : String
  sample_rate : ℕ
  duration : ℚ
  seed : ℕ
  global_ : GlobalSettings
  layers : List Layer
  fx_chain : List FX
  params : List Param
deriving DecidableEq, Repr

/-- Abstracted numeric primitives: `math.sin`, `math.cos`, `math.exp`,
Python `a ** b` on floats (`rpow`), `math.pi`, and `rand seed k`, the value
of the `k`-th call to `random.Random(seed).random()` (a deterministic
function of the seed, as the Mersenne Twister is). -/
structure Ops where
  sin : ℚ → ℚ
  cos : ℚ → ℚ
  exp : ℚ → ℚ
  rpow : ℚ → ℚ → ℚ
  pi : ℚ
  rand : ℕ → ℕ → ℚ

/-- State of `random.Random(seed)`: the seed plus how many `random()`
calls have been consumed. -/
structure Rng where
  seed : ℕ
  k : ℕ
deriving DecidableEq, Repr

/-- One call to `rng.random()`. -/
def Rng.next (ops : Ops) (r : Rng) : ℚ × Rng :=
  (ops.rand r.seed r.k, ⟨r.seed, r.k + 1⟩)

/-- `rng.uniform(a, b) = a + (b-a)*random()`. -/
def Rng.uniform (ops : Ops) (a b : ℚ) (r : Rng) : ℚ × Rng :=
  let (x, r') := r.next ops
  (a + (b - a) * x, r')

/-! ## Renderer (`renderer.py`) -/

/-- Index-aware map, the shape of every `for i in range(len(samples))`
loop in the renderer. -/
def mapIdxQ (f : ℕ → ℚ → ℚ) : ℕ → List ℚ → List ℚ
  | _, [] => []
  | i, x :: xs => f i x :: mapIdxQ f (i + 1) xs

/-- `generate_waveform(waveform, phase)`.  A `Waveform.other` value (only
producible by path mutation) matches no branch and falls through to
`return 0.0`, as in Python where a non-enum value compares unequal to
every member. -/
def generate_waveform (ops : Ops) (w : Waveform) (phase : ℚ) : ℚ :=
  let p := floatMod phase (2 * ops.pi)
  match w with
  | .sine => ops.sin p
  | .triangle => 2 * |2 * (p / (2 * ops.pi) - 1/2)| - 1
  | .square => if p < ops.pi then 1 else -1
  | .saw => 2 * (p / (2 * ops.pi)) - 1
  | .other _ => 0

/-- `softclip(x)` (`renderer.py:465`): clip the input to `[-1,1]` first,
cubic shaping only inside. -/
def softclip (x : ℚ) : ℚ :=
  if 1 < x then 1
  else if x < -1 then -1
  else x - x ^ 3 / 3

/-- `render_osc`: evaluated pointwise at `t = i / sample_rate`. -/
def render_osc (ops : Ops) (layer : Layer) (osc : OscParams)
    (num_samples sample_rate : ℕ) : List ℚ :=
  let freq := osc.freq * ops.rpow 2 (osc.detune / 1200)
  (List.range num_samples).map fun i =>
    let t : ℚ := (i : ℚ) / (sample_rate : ℚ)
    let phase_rad := 2 * ops.pi * freq * t + layer.phase
    let base := generate_waveform ops osc.waveform phase_rad
    (osc.harmonics.getD []).foldl
      (fun acc h => acc + generate_waveform ops osc.waveform (phase_rad * h.mul) * h.amp)
      base

/-- Loop body of `render_chirp`: the phase is accumulated sample by
sample; `todo` counts the remaining iterations, `i` is the loop index. -/
def render_chirp_go (ops : Ops) (c : ChirpParams) (sample_rate : ℕ) (dur : ℚ) :
    ℕ → ℕ → ℚ → List ℚ
  | 0, _, _ => []
  | todo + 1, i, phase =>
    let t : ℚ := (i : ℚ) / (sample_rate : ℚ)
    let freq0 :=
      if c.curve = .linear then c.f_start + (c.f_end - c.f_start) * (t / dur)
      else c.f_start * ops.rpow (c.f_end / c.f_start) (t / dur)
    let freq :=
      if 0 < c.vibrato_hz then
        freq0 * (1 + ops.sin (2 * ops.pi * c.vibrato_hz * t) * c.vibrato_depth)
      else freq0
    let phase_rad := phase
    let phase' := phase + 2 * ops.pi * freq / (sample_rate : ℚ)
    let base := generate_waveform ops c.waveform phase_rad
    let s := (c.harmonics.getD []).foldl
      (fun acc h => acc + generate_waveform ops c.waveform (phase_rad * h.mul) * h.amp)
      base
    s :: render_chirp_go ops c sample_rate dur todo (i + 1) phase'

/-- `render_chirp`.  Note the loop recomputes `duration = num_samples /
sample_rate` from the (truncated) sample count, shadowing the spec
duration. -/
def render_chirp (ops : Ops) (layer : Layer) (c : ChirpParams)
    (num_samples sample_rate : ℕ) : List ℚ :=
  render_chirp_go ops c sample_rate ((num_samples : ℚ) / (sample_rate : ℚ))
    num_samples 0 layer.phase

/-- `render_fm`. -/
def render_fm (ops : Ops) (layer : Layer) (fm : FMParams)
    (num_samples sample_rate : ℕ) : List ℚ :=
  (List.range num_samples).map fun i =>
    let t : ℚ := (i : ℚ) / (sample_rate : ℚ)
    let modulator := ops.sin (2 * ops.pi * fm.mod_freq * t) * fm.index
    let carrier_phase := 2 * ops.pi * fm.carrier_freq * t + modulator
    let s := ops.sin (carrier_phase + layer.phase)
    if 1/2 < fm.brightness then
      softclip (s * (1 + (fm.brightness - 1/2) * 2))
    else s

/-- White-noise loop: `num_samples` draws of `rng.uniform(-1, 1)`. -/
def render_white_go (ops : Ops) : ℕ → Rng → List ℚ × Rng
  | 0, r => ([], r)
  | todo + 1, r =>
    let (x, r') := r.uniform ops (-1) 1
    let (rest, r'') := render_white_go ops todo r'
    (x :: rest, r'')

/-- Pink-noise loop (Paul Kellet's approximation; `b6` is updated after
the sample is emitted). -/
def render_pink_go (ops : Ops) :
    ℕ → ℚ → ℚ → ℚ → ℚ → ℚ → ℚ → ℚ → Rng → List ℚ × Rng
  | 0, _, _, _, _, _, _, _, r => ([], r)
  | todo + 1, b0, b1, b2, b3, b4, b5, b6, r =>
    let (white, r') := r.uniform ops (-1) 1
    let b0' := 0.99886 * b0 + white * 0.0555179
    let b1' := 0.99332 * b1 + white * 0.0750759
    let b2' := 0.96900 * b2 + white * 0.1538520
    let b3' := 0.86650 * b3 + white * 0.3104856
    let b4' := 0.55000 * b4 + white * 0.5329522
    let b5' := -0.7616 * b5 - white * 0.0168980
    let s := (b0' + b1' + b2' + b3' + b4' + b5' + b6 + white * 0.5362) * 0.11
    let b6' := white * 0.115926
    let (rest, r'') := render_pink_go ops todo b0' b1' b2' b3' b4' b5' b6' r'
    (s :: rest, r'')

/-- Swept cutoff used by all three filter kernels: with `cutoff_end` set,
interpolate at `t = i / len(samples)`, linearly or geometrically. -/
def sweepCutoff (ops : Ops) (filt : Filter) (t : ℚ) : ℚ :=
  match filt.cutoff_end with
  | none => filt.cutoff
  | some ce =>
    if filt.curve = .linear then filt.cutoff + (ce - filt.cutoff) * t
    else filt.cutoff * ops.rpow (ce / filt.cutoff) t

/-- `apply_onepole_lp` loop. -/
def onepole_lp_go (ops : Ops) (filt : Filter) (sample_rate len : ℕ) :
    ℕ → ℚ → List ℚ → List ℚ
  | _, _, [] => []
  | i, y_prev, x :: xs =>
    let cutoff := sweepCutoff ops filt ((i : ℚ) / (len : ℚ))
    let rc := 1 / (2 * ops.pi * cutoff)
    let dt := 1 / (sample_rate : ℚ)
    let alpha := dt / (rc + dt)
    let y := alpha * x + (1 - alpha) * y_prev
    y :: onepole_lp_go ops filt sample_rate len (i + 1) y xs

/-- `apply_onepole_hp` loop. -/
def onepole_hp_go (ops : Ops) (filt : Filter) (sample_rate len : ℕ) :
    ℕ → ℚ → ℚ → List ℚ → List ℚ
  | _, _, _, [] => []
  | i, y_prev, x_prev, x :: xs =>
    let cutoff := sweepCutoff ops filt ((i : ℚ) / (len : ℚ))
    let rc := 1 / (2 * ops.pi * cutoff)
    let dt := 1 / (sample_rate : ℚ)
    let alpha := rc / (rc + dt)
    let y := alpha * (y_prev + x - x_prev)
    y :: onepole_hp_go ops filt sample_rate len (i + 1) y x xs

/-- `apply_biquad` loop (RBJ cookbook, direct form I, normalized by `a0`;
coefficients recomputed per sample). -/
def biquad_go (ops : Ops) (filt : Filter) (sample_rate len : ℕ) :
    ℕ → ℚ → ℚ → ℚ → ℚ → List ℚ → List ℚ
  | _, _, _, _, _, [] => []
  | i, x1, x2, y1, y2, x :: xs =>
    let cutoff := sweepCutoff ops filt ((i : ℚ) / (len : ℚ))
    let w0 := 2 * ops.pi * cutoff / (sample_rate : ℚ)
    let cos_w0 := ops.cos w0
    let sin_w0 := ops.sin w0
    let alpha := sin_w0 / (2 * filt.q)
    let a0 := 1 + alpha
    let (b0, b1, b2) :=
      match filt.type with
      | .biquad_lp => ((1 - cos_w0) / 2, 1 - cos_w0, (1 - cos_w0) / 2)
      | .biquad_hp => ((1 + cos_w0) / 2, -(1 + cos_w0), (1 + cos_w0) / 2)
      | .biquad_bp => (alpha, 0, -alpha)
      | _ => (1, -2 * cos_w0, 1)
    let a1 := -2 * cos_w0
    let a2 := 1 - alpha
    let y := (b0 / a0) * x + (b1 / a0) * x1 + (b2 / a0) * x2
      - (a1 / a0) * y1 - (a2 / a0) * y2
    y :: biquad_go ops filt sample_rate len (i + 1) x x1 y y1 xs

/-- `apply_filter`: `lp1`/`hp1` go to the one-pole kernels, everything
else (all four biquad types) to the biquad kernel. -/
def apply_filter (ops : Ops) (samples : List ℚ) (filt : Filter)
    (sample_rate : ℕ) : List ℚ :=
  match filt.type with
  | .lp1 => onepole_lp_go ops filt sample_rate samples.length 0 0 samples
  | .hp1 => onepole_hp_go ops filt sample_rate samples.length 0 0 0 samples
  | _ => biquad_go ops filt sample_rate samples.length 0 0 0 0 0 samples

/-- `render_noise`: white or pink draws, then (when `cutoff_start` is
set) one pass through a swept `biquad_lp` whose `cutoff_end` defaults to
`cutoff_start` and whose `q` takes the schema default `0.707`. -/
def render_noise (ops : Ops) (noise : NoiseParams)
    (num_samples sample_rate : ℕ) (rng : Rng) : List ℚ × Rng :=
  let (raw, rng') :=
    match noise.color with
    | .white => render_white_go ops num_samples rng
    | .pink => render_pink_go ops num_samples 0 0 0 0 0 0 0 rng
  match noise.cutoff_start with
  | none => (raw, rng')
  | some cs =>
    let ce := noise.cutoff_end.getD cs
    let filt : Filter :=
      { type := .biquad_lp, cutoff := cs, q := 0.707, cutoff_end := some ce,
        curve := noise.cutoff_curve }
    (apply_filter ops raw filt sample_rate, rng')

/-- `tap` loop of `render_impulse`: one `rng.random()` draw per sample. -/
def render_tap_go (ops : Ops) (width_samples : ℕ) : ℕ → ℕ → Rng → List ℚ × Rng
  | 0, _, r => ([], r)
  | todo + 1, i, r =>
    let (x, r') := r.next ops
    let s := (1 - (i : ℚ) / (width_samples : ℚ)) * (x * 0.3 + 0.7)
    let (rest, r'') := render_tap_go ops width_samples todo (i + 1) r'
    (s :: rest, r'')

/-- `render_impulse`.  The buffer is `[0.0]*num_samples` and only a
leading window is overwritten, so the rendered window is padded with
zeros up to `num_samples`. -/
def render_impulse (ops : Ops) (imp : ImpulseParams)
    (num_samples sample_rate : ℕ) (rng : Rng) : List ℚ × Rng :=
  let width_samples := pyInt (imp.width * (sample_rate : ℚ))
  let pad := fun (l : List ℚ) => l ++ List.replicate (num_samples - l.length) 0
  match imp.kind with
  | .click =>
    let w := min width_samples num_samples
    (pad ((List.range w).map fun i =>
      ops.exp (-(i : ℚ) / ((width_samples : ℚ) * 0.3))), rng)
  | .tap =>
    let w := min width_samples num_samples
    let (window, rng') := render_tap_go ops width_samples w 0 rng
    (pad window, rng')
  | .metal_ping =>
    let freq := imp.tone_freq.getD 2000
    let w := min (width_samples * 10) num_samples
    (pad ((List.range w).map fun i =>
      let t : ℚ := (i : ℚ) / (sample_rate : ℚ)
      let env := ops.exp (-t / imp.width)
      let tone := ops.sin (2 * ops.pi * freq * t)
        + 0.5 * ops.sin (2 * ops.pi * freq * 2.3 * t)
        + 0.3 * ops.sin (2 * ops.pi * freq * 3.7 * t)
      tone * env), rng)

/-- `apply_envelope`: per-sample amplitude, finally `result[i] *=
max(0.0, amp)`.  For the `exp` shape attack ramp and `exp(-t/decay)`
overlap from `t = 0`, exactly as in the source. -/
def apply_envelope (ops : Ops) (samples : List ℚ) (env : Envelope)
    (sample_rate : ℕ) (duration : ℚ) : List ℚ :=
  mapIdxQ (fun i s =>
    let t : ℚ := (i : ℚ) / (sample_rate : ℚ)
    let amp : ℚ :=
      match env.shape with
      | .exp =>
        (if t < env.attack then t / env.attack else 1) * ops.exp (-t / env.decay)
      | .lin =>
        if t < env.attack then t / env.attack
        else max 0 (1 - (t - env.attack) / env.decay)
      | .adsr =>
        let sustain_level := env.sustain.getD (1/2)
        let release_time := env.release.getD (1/10)
        let release_start := duration - release_time
        if t < env.attack then t / env.attack
        else if t < env.attack + env.decay then
          1 - (1 - sustain_level) * ((t - env.attack) / env.decay)
        else if t < release_start then sustain_level
        else sustain_level * (1 - (t - release_start) / release_time)
    s * max 0 amp) 0 samples

/-- `apply_modulation`: only tremolo has an effect; the pitch-LFO fields
are read nowhere in the loop. -/
def apply_modulation (ops : Ops) (samples : List ℚ) (m : Modulation)
    (sample_rate : ℕ) : List ℚ :=
  mapIdxQ (fun i s =>
    let t : ℚ := (i : ℚ) / (sample_rate : ℚ)
    let amp_mod :=
      if 0 < m.tremolo_hz then
        1 - m.tremolo_depth * (ops.sin (2 * ops.pi * m.tremolo_hz * t) + 1) / 2
      else 1
    s * amp_mod) 0 samples

/-- Base-signal dispatch of `render_layer` (`renderer.py:54-66`): the
branch matching `layer.type`; `none` models the `AttributeError` Python
raises when the type-matching payload is `None` (impossible for a
validated spec).  The second component is the stream state after the
branch's draws. -/
def render_base (ops : Ops) (layer : Layer) (num_samples sample_rate : ℕ)
    (rng : Rng) : Option (List ℚ) × Rng :=
  match layer.type with
  | .osc =>
    ((layer.osc.map fun o => render_osc ops layer o num_samples sample_rate), rng)
  | .chirp =>
    ((layer.chirp.map fun c => render_chirp ops layer c num_samples sample_rate), rng)
  | .fm =>
    ((layer.fm.map fun f => render_fm ops layer f num_samples sample_rate), rng)
  | .noise =>
    match layer.noise with
    | none => (none, rng)
    | some nz =>
      let (s, r') := render_noise ops nz num_samples sample_rate rng
      (some s, r')
  | .impulse =>
    match layer.impulse with
    | none => (none, rng)
    | some im =>
      let (s, r') := render_impulse ops im num_samples sample_rate rng
      (some s, r')

/-- `render_layer`: base signal, then modulation, filters in order, the
envelope, and the layer amplitude. -/
def render_layer (ops : Ops) (layer : Layer) (duration : ℚ)
    (sample_rate : ℕ) (rng : Rng) : Option (List ℚ) × Rng :=
  let br := render_base ops layer (pyInt (duration * (sample_rate : ℚ))) sample_rate rng
  match br.1 with
  | none => (none, br.2)
  | some s0 =>
    let s1 := match layer.mod with
      | some m => apply_modulation ops s0 m sample_rate
      | none => s0
    let s2 := match layer.filter with
      | some fs => fs.foldl (fun acc f => apply_filter ops acc f sample_rate) s1
      | none => s1
    let s3 := apply_envelope ops s2 layer.env sample_rate duration
    (some (s3.map fun s => s * layer.amp), br.2)

/-- The mixing loop of `render_samples`: `samples[i] += layer_samples[i]`
for `i < min` of the lengths, so the output keeps the length of
`samples`. -/
def mixInto (samples layer_samples : List ℚ) : List ℚ :=
  mapIdxQ (fun i s => s + layer_samples.getD i 0) 0 samples

/-- Sequential layer loop: one shared stream, layers in declared order,
aborting (as the Python exception does) on the first failing layer. -/
def mixLayers (ops : Ops) (duration : ℚ) (sample_rate : ℕ) :
    List Layer → List ℚ → Rng → Option (List ℚ × Rng)
  | [], samples, rng => some (samples, rng)
  | layer :: rest, samples, rng =>
    match render_layer ops layer duration sample_rate rng with
    | (none, _) => none
    | (some ls, rng') => mixLayers ops duration sample_rate rest (mixInto samples ls) rng'

/-- `apply_softclip(samples, drive)`. -/
def apply_softclip (samples : List ℚ) (drive : ℚ) : List ℚ :=
  samples.map fun s => softclip (s * drive)

/-- `apply_bitcrush` loop: sample-and-hold plus quantization at hold
boundaries. -/
def bitcrush_go (steps hold : ℤ) : ℕ → ℚ → List ℚ → List ℚ
  | _, _, [] => []
  | i, held, s :: rest =>
    let held' :=
      if Int.fmod (i : ℤ) hold = 0 then
        (if 0 < steps then (round (s * steps) : ℚ) / (steps : ℚ) else s)
      else held
    held' :: bitcrush_go steps hold (i + 1) held' rest

/-- `apply_bitcrush`.  `none` models the `ZeroDivisionError` of
`i % hold_samples` when `hold_samples == 0` (never the case for a
validated spec, whose `hold_samples ≥ 1`); an empty buffer never enters
the loop and so never raises. -/
def apply_bitcrush (samples : List ℚ) (steps hold : ℤ) : Option (List ℚ) :=
  match samples with
  | [] => some []
  | _ =>
    if hold = 0 then none
    else some (bitcrush_go steps hold 0 0 samples)

/-- `apply_delay` loop: FIFO ring buffer of `delay_samples` zeros. -/
def delay_go (feedback mix : ℚ) : List ℚ → List ℚ → List ℚ
  | _, [] => []
  | buffer, s :: rest =>
    let delayed := buffer.headD 0
    let output := s + delayed * mix
    output :: delay_go feedback mix (buffer.drop 1 ++ [s + delayed * feedback]) rest

/-- `apply_delay`.  `none` models the `IndexError` of `buffer[0]` when
the computed ring length is `≤ 0` (validated `time_ms ≥ 5` makes it
`≥ 110`). -/
def apply_delay (samples : List ℚ) (time_ms feedback mix : ℚ)
    (sample_rate : ℕ) : Option (List ℚ) :=
  let delay_samples := pyTruncZ (time_ms * (sample_rate : ℚ) / 1000)
  match samples with
  | [] => some []
  | _ =>
    if delay_samples ≤ 0 then none
    else some (delay_go feedback mix (List.replicate delay_samples.toNat 0) samples)

/-- `max(abs(s) for s in samples)`; `0` on the empty list (where Python
raises instead — callers guard the empty case). -/
def maxAbs (samples : List ℚ) : ℚ :=
  (samples.map abs).foldl max 0

/-- `normalize_samples(samples, target_peak)`. -/
def normalize_samples (samples : List ℚ) (target_peak : ℚ) : List ℚ :=
  let peak := maxAbs samples
  if 0 < peak then samples.map fun s => s * (target_peak / peak)
  else samples

/-- `apply_fx`: dispatch on the effect type.  `none` models the
`TypeError` raised when a consumed params field is `None` — `softclip`
needs `drive`, `bitcrush` needs `steps` and `hold_samples`, `delay`
needs `time_ms`, `feedback` and `mix`, `normalize` needs `target_peak`
(except on an all-zero buffer, where `target_peak` is never read; on an
empty buffer `max()` itself raises). -/
def apply_fx (samples : List ℚ) (fx : FX) (sample_rate : ℕ) :
    Option (List ℚ) :=
  match fx.type with
  | .softclip => fx.params.drive.map (apply_softclip samples)
  | .bitcrush =>
    match samples, fx.params.steps, fx.params.hold_samples with
    | [], _, _ => some []
    | _, some st, some h => apply_bitcrush samples st h
    | _, _, _ => none
  | .delay =>
    match fx.params.time_ms with
    | none => none
    | some tm =>
      match samples with
      | [] => some []
      | _ =>
        if pyTruncZ (tm * (sample_rate : ℚ) / 1000) ≤ 0 then none
        else
          match fx.params.feedback, fx.params.mix with
          | some fb, some mx => apply_delay samples tm fb mx sample_rate
          | _, _ => none
  | .normalize =>
    match samples with
    | [] => none
    | _ =>
      match fx.params.target_peak with
      | some tp => some (normalize_samples samples tp)
      | none => if 0 < maxAbs samples then none else some samples

/-- The FX loop of `render_samples`: enabled effects in declared order. -/
def applyFxChain (sample_rate : ℕ) :
    List FX → List ℚ → Option (List ℚ)
  | [], samples => some samples
  | fx :: rest, samples =>
    if fx.enabled then
      (apply_fx samples fx sample_rate).bind (applyFxChain sample_rate rest)
    else applyFxChain sample_rate rest samples

/-- `int(spec.duration * spec.sample_rate)` — the buffer size allocated
in step 1 of `render_samples` (truncation, not rounding). -/
def numSamples (spec : SoundSpec) : ℕ :=
  pyInt (spec.duration * (spec.sample_rate : ℚ))

/-- `render_samples(spec)`: allocate `int(duration·sample_rate)` zeros,
mix the layers through one shared stream seeded from `seed`, scale by the
global amp, run the enabled effects in order, normalize to peak 0.95 when
requested (Python raises on `max()` of an empty buffer there). -/
def render_samples (ops : Ops) (spec : SoundSpec) : Option (List ℚ) :=
  match mixLayers ops spec.duration spec.sample_rate spec.layers
      (List.replicate (numSamples spec) 0) ⟨spec.seed, 0⟩ with
  | none => none
  | some (mixed, _) =>
    match applyFxChain spec.sample_rate spec.fx_chain
        (mixed.map fun s => s * spec.global_.amp) with
    | none => none
    | some fxed =>
      if spec.global_.normalize then
        if fxed.isEmpty then none else some (normalize_samples fxed 0.95)
      else some fxed

/-! ## WAV encoding (`util_wav.py`) -/

/-- The clamp applied by `float_to_pcm16`: `max(-1.0, min(1.0, sample))`. -/
def pcmClamp (s : ℚ) : ℚ :=
  max (-1) (min 1 s)

/-- The 16-bit PCM integer for one sample: clamp, scale by 32767,
truncate toward zero. -/
def pcmValue (s : ℚ) : ℤ :=
  pyTruncZ (pcmClamp s * 32767)

/-- Two little-endian bytes of a signed 16-bit value. -/
def int16le (v : ℤ) : List ℕ :=
  let u := (v % 65536).toNat
  [u % 256, u / 256 % 256]

/-- `float_to_pcm16`. -/
def float_to_pcm16 (samples : List ℚ) : List ℕ :=
  samples.flatMap fun s => int16le (pcmValue s)

/-- Four little-endian bytes of an unsigned 32-bit value. -/
def u32le (n : ℕ) : List ℕ :=
  [n % 256, n / 256 % 256, n / 65536 % 256, n / 16777216 % 256]

/-- Two little-endian bytes of an unsigned 16-bit value. -/
def u16le (n : ℕ) : List ℕ :=
  [n % 256, n / 256 % 256]

/-- `encode_wav(samples, sample_rate)`: RIFF/WAVE header, 16-byte `fmt `
chunk (PCM, mono, 16 bits), `data` chunk. -/
def encode_wav (samples : List ℚ) (sample_rate : ℕ) : List ℕ :=
  let pcm_data := float_to_pcm16 samples
  let data_size := pcm_data.length
  [82, 73, 70, 70] ++ u32le (36 + data_size) ++ [87, 65, 86, 69]
    ++ [102, 109, 116, 32] ++ u32le 16 ++ u16le 1 ++ u16le 1
    ++ u32le sample_rate ++ u32le (sample_rate * 2) ++ u16le 2 ++ u16le 16
    ++ [100, 97, 116, 97] ++ u32le data_size ++ pcm_data

/-- `render_wav_bytes(spec)` (`none` when rendering raises). -/
def render_wav_bytes (ops : Ops) (spec : SoundSpec) : Option (List ℕ) :=
  (render_samples ops spec).map fun samples => encode_wav samples spec.sample_rate

/-- Sample `i` of a possibly-failing render. -/
def sampleAt (out : Option (List ℚ)) (i : ℕ) : Option ℚ :=
  out.bind fun l => l.get? i

/-- The per-sample softclip mapping as claim C6 words it: scale by
drive, apply `x − x³/3`, then clip the **result** to `[-1, 1]`.  Written
from the claim, to be compared with the source's `softclip`. -/
def softclipPerClaim (drive s : ℚ) : ℚ :=
  max (-1) (min 1 (s * drive - (s * drive) ^ 3 / 3))

/-- The per-sample softclip mapping as the source computes it (amended
claim C6): with `x = s·drive`, an input outside `[-1,1]` yields its
sign, the cubic is applied only inside. -/
def softclipAmended (drive s : ℚ) : ℚ :=
  let x := s * drive
  if 1 < |x| then (if x < 0 then -1 else 1) else x - x ^ 3 / 3

/-- `noRandLayer`: the layer consumes no pseudo-random draws — it is not
a noise layer and not a `tap` impulse (C10's hypothesis). -/
def noRandLayer (l : Layer) : Bool :=
  !(l.type == .noise) &&
    (match l.type, l.impulse with
     | .impulse, some im => !(im.kind == .tap)
     | _, _ => true)

/-! ## Path resolver (`paths.py`)

Paths are processed as ASCII character lists (`\w`/`\d` of Python's `re`
are modelled at ASCII width).  The resolver never raises: every Python
coercion error is caught by the surrounding `try/except` and surfaces as
the boolean `false`, so the embedding is a total function returning the
flag and the (possibly updated) spec. -/

/-- A `\w` character: alphanumeric or underscore. -/
def isWordChar (c : Char) : Bool :=
  c.isAlphanum || c = '_'

/-- Digits to the number they denote. -/
def natOfDigits (cs : List Char) : ℕ :=
  cs.foldl (fun n c => 10 * n + (c.toNat - 48)) 0

/-- Python `path.split('.')` (single-character separator). -/
def splitOnChar (sep : Char) : List Char → List (List Char)
  | [] => [[]]
  | c :: cs =>
    if c = sep then [] :: splitOnChar sep cs
    else
      match splitOnChar sep cs with
      | [] => [[c]]
      | h :: t => (c :: h) :: t

/-- `re.match(r'(\w+)\[(\d+)\]\.?(.*)', path)`: a nonempty word-char
run, a bracketed nonempty digit run, an optional dot, then everything up
to the first newline (`.` does not match `\n`; `re.match` needs no full
consumption). -/
def matchBracket (cs : List Char) : Option (List Char × ℕ × List Char) :=
  let w := cs.takeWhile isWordChar
  let r1 := cs.dropWhile isWordChar
  if w = [] then none
  else
    match r1 with
    | [] => none
    | c1 :: r2 =>
      if c1 = '[' then
        let ds := r2.takeWhile Char.isDigit
        let r3 := r2.dropWhile Char.isDigit
        if ds = [] then none
        else
          match r3 with
          | [] => none
          | c2 :: r4 =>
            if c2 = ']' then
              let r5 := match r4 with
                | c3 :: t => if c3 = '.' then t else c3 :: t
                | [] => []
              some (w, natOfDigits ds, r5.takeWhile fun c => c ≠ '\n')
            else none
      else none

/-- Python `float(s)` on the decimal forms `[+-]digits[.digits]` (the
scientific/inf/whitespace forms never arise from the UI and are not
modelled; an unparsable string raises, i.e. `none`). -/
def parseFloatStr (cs : List Char) : Option ℚ :=
  let (sign, cs1) : ℚ × List Char :=
    match cs with
    | '-' :: t => (-1, t)
    | '+' :: t => (1, t)
    | _ => (1, cs)
  let d1 := cs1.takeWhile Char.isDigit
  let r1 := cs1.dropWhile Char.isDigit
  match r1 with
  | [] => if d1 = [] then none else some (sign * natOfDigits d1)
  | '.' :: r2 =>
    let d2 := r2.takeWhile Char.isDigit
    let r3 := r2.dropWhile Char.isDigit
    if r3 = [] && !(d1 = [] && d2 = []) then
      some (sign * ((natOfDigits d1 : ℚ) + (natOfDigits d2 : ℚ) / (10 : ℚ) ^ d2.length))
    else none
  | _ => none

/-- Python `int(s)`: only `[+-]digits` (a fractional string raises). -/
def parseIntStr (cs : List Char) : Option ℤ :=
  let (sign, cs1) : ℤ × List Char :=
    match cs with
    | '-' :: t => (-1, t)
    | '+' :: t => (1, t)
    | _ => (1, cs)
  if cs1 ≠ [] && cs1.all Char.isDigit then some (sign * natOfDigits cs1)
  else none

/-- `float(value)`: floats pass, booleans widen to 0/1, strings parse or
raise. -/
def coerceFloat : Value → Option ℚ
  | .num q => some q
  | .bool b => some (if b then 1 else 0)
  | .str s => parseFloatStr s.toList

/-- `int(value)`: floats truncate toward zero, booleans widen, strings
must be integral. -/
def coerceInt : Value → Option ℤ
  | .num q => some (pyTruncZ q)
  | .bool b => some (if b then 1 else 0)
  | .str s => parseIntStr s.toList

/-- `bool(value)`: Python truthiness, never raises. -/
def coerceBool : Value → Bool
  | .num q => decide (q ≠ 0)
  | .bool b => b
  | .str s => decide (s ≠ "")

/-- `osc.waveform = value`: the raw value is assigned unchecked; a string
equal to an enum value behaves as that member (`str`-enum equality), any
other value matches no waveform branch. -/
def waveformOfValue : Value → Waveform
  | .str s =>
    if s = "sine" then .sine
    else if s = "triangle" then .triangle
    else if s = "square" then .square
    else if s = "saw" then .saw
    else .other (.str s)
  | v => .other v

/-- `fx.type.value`. -/
def fxTypeStr : FXType → List Char
  | .softclip => "softclip".toList
  | .bitcrush => "bitcrush".toList
  | .delay => "delay".toList
  | .normalize => "normalize".toList

/-- One `x.field = float(value)` statement: coerce, then set, or fail
leaving the object untouched. -/
def trySetQ (v : Value) (orig : α) (set : ℚ → α) : Bool × α :=
  match coerceFloat v with
  | some q => (true, set q)
  | none => (false, orig)

/-- One `x.field = int(value)` statement. -/
def trySetZ (v : Value) (orig : α) (set : ℤ → α) : Bool × α :=
  match coerceInt v with
  | some z => (true, set z)
  | none => (false, orig)

/-- `_update_osc_field`. -/
def updateOscField (o : OscParams) (field : List Char) (v : Value) : Bool × OscParams :=
  if field = "freq".toList then trySetQ v o fun q => { o with freq := q }
  else if field = "detune".toList then trySetQ v o fun q => { o with detune := q }
  else if field = "waveform".toList then (true, { o with waveform := waveformOfValue v })
  else (false, o)

/-- `_update_chirp_field`. -/
def updateChirpField (c : ChirpParams) (field : List Char) (v : Value) : Bool × ChirpParams :=
  if field = "f_start".toList then trySetQ v c fun q => { c with f_start := q }
  else if field = "f_end".toList then trySetQ v c fun q => { c with f_end := q }
  else if field = "vibrato_hz".toList then trySetQ v c fun q => { c with vibrato_hz := q }
  else if field = "vibrato_depth".toList then trySetQ v c fun q => { c with vibrato_depth := q }
  else if field = "waveform".toList then (true, { c with waveform := waveformOfValue v })
  else (false, c)

/-- `_update_fm_field`. -/
def updateFMField (f : FMParams) (field : List Char) (v : Value) : Bool × FMParams :=
  if field = "carrier_freq".toList then trySetQ v f fun q => { f with carrier_freq := q }
  else if field = "mod_freq".toList then trySetQ v f fun q => { f with mod_freq := q }
  else if field = "index".toList then trySetQ v f fun q => { f with index := q }
  else if field = "brightness".toList then trySetQ v f fun q => { f with brightness := q }
  else (false, f)

/-- `_update_noise_field`. -/
def updateNoiseField (n : NoiseParams) (field : List Char) (v : Value) : Bool × NoiseParams :=
  if field = "cutoff_start".toList then trySetQ v n fun q => { n with cutoff_start := some q }
  else if field = "cutoff_end".toList then trySetQ v n fun q => { n with cutoff_end := some q }
  else (false, n)

/-- `_update_impulse_field` (`tone_freq` only when already non-null). -/
def updateImpulseField (im : ImpulseParams) (field : List Char) (v : Value) :
    Bool × ImpulseParams :=
  if field = "width".toList then trySetQ v im fun q => { im with width := q }
  else if field = "tone_freq".toList && im.tone_freq.isSome then
    trySetQ v im fun q => { im with tone_freq := some q }
  else (false, im)

/-- `_update_env_field`. -/
def updateEnvField (e : Envelope) (field : List Char) (v : Value) : Bool × Envelope :=
  if field = "attack".toList then trySetQ v e fun q => { e with attack := q }
  else if field = "decay".toList then trySetQ v e fun q => { e with decay := q }
  else if field = "sustain".toList then trySetQ v e fun q => { e with sustain := some q }
  else if field = "release".toList then trySetQ v e fun q => { e with release := some q }
  else (false, e)

/-- `_update_mod_field`. -/
def updateModField (m : Modulation) (field : List Char) (v : Value) : Bool × Modulation :=
  if field = "tremolo_hz".toList then trySetQ v m fun q => { m with tremolo_hz := q }
  else if field = "tremolo_depth".toList then trySetQ v m fun q => { m with tremolo_depth := q }
  else if field = "pitch_lfo_hz".toList then trySetQ v m fun q => { m with pitch_lfo_hz := q }
  else if field = "pitch_lfo_depth".toList then trySetQ v m fun q => { m with pitch_lfo_depth := q }
  else (false, m)

/-- Typed-payload / envelope / modulation branch of `_update_layer_field`
(the `elif` chain after the direct fields), for `parts = field :: sub :: ...`. -/
def updateLayerSub (l : Layer) (field sub : List Char) (v : Value) : Bool × Layer :=
  if field = "osc".toList && l.osc.isSome then
    match l.osc with
    | some o =>
      let r := updateOscField o sub v
      (r.1, if r.1 then { l with osc := some r.2 } else l)
    | none => (false, l)
  else if field = "chirp".toList && l.chirp.isSome then
    match l.chirp with
    | some c =>
      let r := updateChirpField c sub v
      (r.1, if r.1 then { l with chirp := some r.2 } else l)
    | none => (false, l)
  else if field = "fm".toList && l.fm.isSome then
    match l.fm with
    | some f =>
      let r := updateFMField f sub v
      (r.1, if r.1 then { l with fm := some r.2 } else l)
    | none => (false, l)
  else if field = "noise".toList && l.noise.isSome then
    match l.noise with
    | some n =>
      let r := updateNoiseField n sub v
      (r.1, if r.1 then { l with noise := some r.2 } else l)
    | none => (false, l)
  else if field = "impulse".toList && l.impulse.isSome then
    match l.impulse with
    | some im =>
      let r := updateImpulseField im sub v
      (r.1, if r.1 then { l with impulse := some r.2 } else l)
    | none => (false, l)
  else if field = "env".toList then
    let r := updateEnvField l.env sub v
    (r.1, if r.1 then { l with env := r.2 } else l)
  else if field = "mod".toList && l.mod.isSome then
    match l.mod with
    | some m =>
      let r := updateModField m sub v
      (r.1, if r.1 then { l with mod := some r.2 } else l)
    | none => (false, l)
  else (false, l)

/-- `_update_layer_field`: direct fields, then the typed payloads (only
when populated), the envelope, and modulation (only when present).
Extra path segments beyond the second are ignored, as in the source
(`subfield = parts[1]`). -/
def updateLayerField (l : Layer) (parts : List (List Char)) (v : Value) : Bool × Layer :=
  match parts with
  | [] => (false, l)
  | field :: rest =>
    if field = "amp".toList then trySetQ v l fun q => { l with amp := q }
    else if field = "pan".toList then trySetQ v l fun q => { l with pan := q }
    else if field = "phase".toList then trySetQ v l fun q => { l with phase := q }
    else
      match rest with
      | [] => (false, l)
      | sub :: _ => updateLayerSub l field sub v

/-- The `params.<f>` whitelist of `_update_fx_field`. -/
def updateFxParamsField (fx : FX) (f : List Char) (v : Value) : Bool × FX :=
  if f = "drive".toList then
    trySetQ v fx fun q => { fx with params := { fx.params with drive := some q } }
  else if f = "steps".toList then
    trySetZ v fx fun z => { fx with params := { fx.params with steps := some z } }
  else if f = "hold_samples".toList then
    trySetZ v fx fun z => { fx with params := { fx.params with hold_samples := some z } }
  else if f = "time_ms".toList then
    trySetQ v fx fun q => { fx with params := { fx.params with time_ms := some q } }
  else if f = "feedback".toList then
    trySetQ v fx fun q => { fx with params := { fx.params with feedback := some q } }
  else if f = "mix".toList then
    trySetQ v fx fun q => { fx with params := { fx.params with mix := some q } }
  else if f = "target_peak".toList then
    trySetQ v fx fun q => { fx with params := { fx.params with target_peak := some q } }
  else (false, fx)

/-- `_update_fx_field`: `enabled`, or a whitelisted `params.<f>` with
its primitive coercion. -/
def updateFxField (fx : FX) (parts : List (List Char)) (v : Value) : Bool × FX :=
  match parts with
  | [] => (false, fx)
  | p0 :: rest =>
    if p0 = "enabled".toList then (true, { fx with enabled := coerceBool v })
    else if p0 = "params".toList then
      match rest with
      | [] => (false, fx)
      | f :: _ => updateFxParamsField fx f v
    else (false, fx)

/-- In-place update of the layer at a (pre-bounds-checked) index. -/
def updateLayersAt (parts : List (List Char)) (v : Value) :
    ℕ → List Layer → Bool × List Layer
  | _, [] => (false, [])
  | 0, l :: rest =>
    let r := updateLayerField l parts v
    (r.1, r.2 :: rest)
  | n + 1, l :: rest =>
    let r := updateLayersAt parts v n rest
    (r.1, l :: r.2)

/-- `_update_layers_by_id`: the first layer whose id equals the path
segment, or failure. -/
def updateLayersListById (lid : List Char) (parts : List (List Char)) (v : Value) :
    List Layer → Bool × List Layer
  | [] => (false, [])
  | l :: rest =>
    if l.id.toList = lid then
      let r := updateLayerField l parts v
      (r.1, r.2 :: rest)
    else
      let r := updateLayersListById lid parts v rest
      (r.1, l :: r.2)

/-- In-place update of the effect at a (pre-bounds-checked) index. -/
def updateFxAt (parts : List (List Char)) (v : Value) :
    ℕ → List FX → Bool × List FX
  | _, [] => (false, [])
  | 0, fx :: rest =>
    let r := updateFxField fx parts v
    (r.1, r.2 :: rest)
  | n + 1, fx :: rest =>
    let r := updateFxAt parts v n rest
    (r.1, fx :: r.2)

/-- `_update_fx_by_type`: the first effect whose `type.value` equals the
path segment, or failure. -/
def updateFirstFxByType (tstr : List Char) (parts : List (List Char)) (v : Value) :
    List FX → Bool × List FX
  | [] => (false, [])
  | fx :: rest =>
    if fxTypeStr fx.type = tstr then
      let r := updateFxField fx parts v
      (r.1, r.2 :: rest)
    else
      let r := updateFirstFxByType tstr parts v rest
      (r.1, fx :: r.2)

/-- `_update_global`. -/
def updateGlobal (spec : SoundSpec) (parts : List (List Char)) (v : Value) :
    Bool × SoundSpec :=
  match parts with
  | [] => (false, spec)
  | f :: _ =>
    if f = "amp".toList then
      trySetQ v spec fun q => { spec with global_ := { spec.global_ with amp := q } }
    else if f = "normalize".toList then
      (true, { spec with global_ := { spec.global_ with normalize := coerceBool v } })
    else (false, spec)

/-- `update_spec_from_param(spec, path, value)`: `true` plus the updated
spec, or `false` plus the untouched spec.  The bracket regex is tried
first whenever the path contains `'['`; a match with a prefix other than
`layers`/`fx`, or no match, falls through to the dot-separated forms,
exactly as the source's control flow does. -/
def update_spec_from_param (spec : SoundSpec) (path : String) (value : Value) :
    Bool × SoundSpec :=
  let cs := path.toList
  let bracketResult : Option (Bool × SoundSpec) :=
    if cs.any (fun c => c = '[') then
      match matchBracket cs with
      | some (pfx, idx, remainder) =>
        if pfx = "layers".toList then
          some (
            if spec.layers.length ≤ idx then (false, spec)
            else if remainder = [] then (false, spec)
            else
              let r := updateLayersAt (splitOnChar '.' remainder) value idx spec.layers
              (r.1, if r.1 then { spec with layers := r.2 } else spec))
        else if pfx = "fx".toList then
          some (
            if spec.fx_chain.length ≤ idx then (false, spec)
            else if remainder = [] then (false, spec)
            else
              let r := updateFxAt (splitOnChar '.' remainder) value idx spec.fx_chain
              (r.1, if r.1 then { spec with fx_chain := r.2 } else spec))
        else none
      | none => none
    else none
  match bracketResult with
  | some r => r
  | none =>
    match splitOnChar '.' cs with
    | [] => (false, spec)
    | p0 :: rest =>
      if p0 = "global".toList then updateGlobal spec rest value
      else if p0 = "duration".toList then
        trySetQ value spec fun q => { spec with duration := q }
      else if p0 = "layers_by_id".toList then
        match rest with
        | [] => (false, spec)
        | lid :: parts =>
          let r := updateLayersListById lid parts value spec.layers
          (r.1, if r.1 then { spec with layers := r.2 } else spec)
      else if p0 = "fx_by_type".toList then
        match rest with
        | [] => (false, spec)
        | tstr :: parts =>
          let r := updateFirstFxByType tstr parts value spec.fx_chain
          (r.1, if r.1 then { spec with fx_chain := r.2 } else spec)
      else (false, spec)

/-! ## Leaf-difference counting (to state "sets exactly one leaf field")

`diffSpec` counts, leaf field by leaf field, how many positions two
specs disagree on; structure-changing edits (different list length,
payload presence flips) count as well.  "Sets at most one leaf" is
`diffSpec spec spec' ≤ 1` (a set to the current value changes zero). -/

/-- 0 when the two leaves agree, 1 otherwise. -/
def dOne [DecidableEq α] (x y : α) : ℕ :=
  if x = y then 0 else 1

def diffEnvelope (a b : Envelope) : ℕ :=
  dOne a.attack b.attack + dOne a.decay b.decay + dOne a.sustain b.sustain
    + dOne a.release b.release + dOne a.shape b.shape

def diffModulation (a b : Modulation) : ℕ :=
  dOne a.tremolo_hz b.tremolo_hz + dOne a.tremolo_depth b.tremolo_depth
    + dOne a.pitch_lfo_hz b.pitch_lfo_hz + dOne a.pitch_lfo_depth b.pitch_lfo_depth

def diffOsc (a b : OscParams) : ℕ :=
  dOne a.waveform b.waveform + dOne a.freq b.freq + dOne a.detune b.detune
    + dOne a.harmonics b.harmonics

def diffChirp (a b : ChirpParams) : ℕ :=
  dOne a.waveform b.waveform + dOne a.f_start b.f_start + dOne a.f_end b.f_end
    + dOne a.curve b.curve + dOne a.vibrato_hz b.vibrato_hz
    + dOne a.vibrato_depth b.vibrato_depth + dOne a.harmonics b.harmonics

def diffFM (a b : FMParams) : ℕ :=
  dOne a.carrier_freq b.carrier_freq + dOne a.mod_freq b.mod_freq
    + dOne a.index b.index + dOne a.brightness b.brightness

def diffNoise (a b : NoiseParams) : ℕ :=
  dOne a.color b.color + dOne a.cutoff_start b.cutoff_start
    + dOne a.cutoff_end b.cutoff_end + dOne a.cutoff_curve b.cutoff_curve

def diffImpulse (a b : ImpulseParams) : ℕ :=
  dOne a.kind b.kind + dOne a.width b.width + dOne a.tone_freq b.tone_freq

/-- Optional block: both absent is no difference, presence flip counts
as a (structural) difference. -/
def diffOpt (f : α → α → ℕ) : Option α → Option α → ℕ
  | none, none => 0
  | some a, some b => f a b
  | _, _ => 2

def diffLayer (a b : Layer) : ℕ :=
  dOne a.id b.id + dOne a.type b.type + dOne a.amp b.amp + dOne a.pan b.pan
    + diffEnvelope a.env b.env + diffOpt diffModulation a.mod b.mod
    + dOne a.filter b.filter + dOne a.phase b.phase
    + diffOpt diffOsc a.osc b.osc + diffOpt diffChirp a.chirp b.chirp
    + diffOpt diffFM a.fm b.fm + diffOpt diffNoise a.noise b.noise
    + diffOpt diffImpulse a.impulse b.impulse

def diffFXParams (a b : FXParams) : ℕ :=
  dOne a.drive b.drive + dOne a.steps b.steps + dOne a.hold_samples b.hold_samples
    + dOne a.time_ms b.time_ms + dOne a.feedback b.feedback + dOne a.mix b.mix
    + dOne a.target_peak b.target_peak

def diffFX (a b : FX) : ℕ :=
  dOne a.type b.type + dOne a.enabled b.enabled + diffFXParams a.params b.params

/-- Pairwise list difference; a length change counts as structural. -/
def diffList (f : α → α → ℕ) : List α → List α → ℕ
  | [], [] => 0
  | a :: as', b :: bs => f a b + diffList f as' bs
  | _, _ => 2

def diffSpec (a b : SoundSpec) : ℕ :=
  dOne a.name b.name + dOne a.description b.description
    + dOne a.sample_rate b.sample_rate + dOne a.duration b.duration
    + dOne a.seed b.seed + dOne a.global_.amp b.global_.amp
    + dOne a.global_.normalize b.global_.normalize
    + diffList diffLayer a.layers b.layers + diffList diffFX a.fx_chain b.fx_chain
    + diffList dOne a.params b.params

/-! ## Validity (the invariants `schema.py` enforces on a constructed
`SoundSpec`, as a decidable predicate) -/

/-- `Field(ge, le)`. -/
def rangeQ (lo hi x : ℚ) : Bool :=
  decide (lo ≤ x) && decide (x ≤ hi)

/-- A constraint on an `Optional` field holds vacuously for `None`. -/
def optCheck (f : α → Bool) : Option α → Bool
  | none => true
  | some x => f x

def checkHarmonic (h : Harmonic) : Bool :=
  rangeQ 1 10 h.mul && rangeQ 0 1 h.amp

def checkEnvelope (e : Envelope) : Bool :=
  rangeQ 0 (1/5) e.attack && rangeQ (1/1000) 2 e.decay
    && optCheck (rangeQ 0 1) e.sustain && optCheck (rangeQ 0 2) e.release

def checkModulation (m : Modulation) : Bool :=
  rangeQ 0 30 m.tremolo_hz && rangeQ 0 (4/5) m.tremolo_depth
    && rangeQ 0 30 m.pitch_lfo_hz && rangeQ 0 (1/10) m.pitch_lfo_depth

def checkFilter (f : Filter) : Bool :=
  rangeQ 20 20000 f.cutoff && rangeQ (1/10) 10 f.q
    && optCheck (rangeQ 20 20000) f.cutoff_end

/-- Validation only ever constructs the four enum members. -/
def isEnumWaveform : Waveform → Bool
  | .other _ => false
  | _ => true

def checkHarmonics (hs : Option (List Harmonic)) : Bool :=
  optCheck (fun l => decide (l.length ≤ 8) && l.all checkHarmonic) hs

def checkOsc (o : OscParams) : Bool :=
  isEnumWaveform o.waveform && rangeQ 20 20000 o.freq
    && rangeQ (-50) 50 o.detune && checkHarmonics o.harmonics

def checkChirp (c : ChirpParams) : Bool :=
  isEnumWaveform c.waveform && rangeQ 20 20000 c.f_start
    && rangeQ 20 20000 c.f_end && rangeQ 0 40 c.vibrato_hz
    && rangeQ 0 (1/10) c.vibrato_depth && checkHarmonics c.harmonics

def checkFM (f : FMParams) : Bool :=
  rangeQ 20 20000 f.carrier_freq && rangeQ 1 20000 f.mod_freq
    && rangeQ 0 20 f.index && rangeQ 0 1 f.brightness

def checkNoise (n : NoiseParams) : Bool :=
  optCheck (rangeQ 50 20000) n.cutoff_start && optCheck (rangeQ 50 20000) n.cutoff_end

def checkImpulse (im : ImpulseParams) : Bool :=
  rangeQ (1/5000) (1/50) im.width && optCheck (rangeQ 20 20000) im.tone_freq

/-- `Layer.check_type_params`: the payload matching `type` is populated. -/
def payloadMatch (l : Layer) : Bool :=
  match l.type with
  | .osc => l.osc.isSome
  | .chirp => l.chirp.isSome
  | .fm => l.fm.isSome
  | .noise => l.noise.isSome
  | .impulse => l.impulse.isSome

def checkLayer (l : Layer) : Bool :=
  rangeQ 0 1 l.amp && rangeQ (-1) 1 l.pan
    && rangeQ 0 6.283185307179586 l.phase
    && checkEnvelope l.env && optCheck checkModulation l.mod
    && optCheck (fun fs => decide (fs.length ≤ 4) && fs.all checkFilter) l.filter
    && optCheck checkOsc l.osc && optCheck checkChirp l.chirp
    && optCheck checkFM l.fm && optCheck checkNoise l.noise
    && optCheck checkImpulse l.impulse && payloadMatch l

def checkFXParams (p : FXParams) : Bool :=
  optCheck (rangeQ 0 4) p.drive
    && optCheck (fun z : ℤ => decide (0 ≤ z) && decide (z ≤ 1024)) p.steps
    && optCheck (fun z : ℤ => decide (1 ≤ z) && decide (z ≤ 64)) p.hold_samples
    && optCheck (rangeQ 5 200) p.time_ms && optCheck (rangeQ 0 (17/20)) p.feedback
    && optCheck (rangeQ 0 (7/10)) p.mix && optCheck (rangeQ (1/10) (99/100)) p.target_peak

def checkFX (fx : FX) : Bool :=
  checkFXParams fx.params

/-- A `SoundSpec` as produced by successful pydantic validation. -/
def ValidSpec (spec : SoundSpec) : Bool :=
  (decide (spec.sample_rate = 22050) || decide (spec.sample_rate = 44100)
      || decide (spec.sample_rate = 48000))
    && rangeQ (3/100) 3 spec.duration
    && decide (spec.seed ≤ 2147483647)
    && rangeQ 0 1 spec.global_.amp
    && decide (1 ≤ spec.layers.length) && decide (spec.layers.length ≤ 16)
    && spec.layers.all checkLayer
    && decide ((spec.layers.map Layer.id).Nodup)
    && decide (spec.fx_chain.length ≤ 8) && spec.fx_chain.all checkFX
    && decide (spec.params.length ≤ 24)
    && decide ((spec.params.map Param.id).Nodup)

/-! ## Concrete instances for witnesses and counterexamples

`ratOpsDemo` plugs executable rational stand-ins into the abstracted
transcendental slots; the claims' theorems quantify over every `Ops`,
the concrete instance only lets closed witnesses evaluate.  All demo
specs below are arranged so the samples they force never depend on the
stand-ins (square waves at phase 0, linear envelopes, zero detune). -/

def ratOpsDemo : Ops where
  sin := fun x => x - x ^ 3 / 6
  cos := fun x => 1 - x ^ 2 / 2
  exp := fun x => 1 + x + x ^ 2 / 2
  rpow := fun b e => if e = 0 then 1 else if e = 1 then b else 1 + e * (b - 1)
  pi := 355/113
  rand := fun seed k => (((seed + 17 * k) % 1000 : ℕ) : ℚ) / 1000

def demoEnv : Envelope :=
  { attack := 0, decay := 2, sustain := none, release := none, shape := .lin }

def demoLayer (i : String) : Layer :=
  { id := i, type := .osc, amp := 1, pan := 0, env := demoEnv, mod := none,
    filter := none, phase := 0,
    osc := some { waveform := .square, freq := 20, detune := 0, harmonics := none },
    chirp := none, fm := none, noise := none, impulse := none }

/-- One square-oscillator layer, no FX: the everyday valid spec. -/
def demoSpec : SoundSpec :=
  { name := "demo", description := "demo", sample_rate := 22050,
    duration := 3/100, seed := 0, global_ := { amp := 1, normalize := false },
    layers := [demoLayer "a"], fx_chain := [], params := [] }

/-- Valid spec whose enabled softclip effect omits `drive` — pydantic
accepts it (`FXParams` fields are all optional), rendering crashes. -/
def emptyFXParams : FXParams :=
  { drive := none, steps := none, hold_samples := none, time_ms := none,
    feedback := none, mix := none, target_peak := none }

def noDriveSpec : SoundSpec :=
  { demoSpec with
    fx_chain := [{ type := .softclip, enabled := true, params := emptyFXParams }] }

/-- Two full-amplitude square layers: their sample 0 values mix to `2`. -/
def twoSquareSpec : SoundSpec :=
  { demoSpec with layers := [demoLayer "a", demoLayer "b"] }

/-- `duration·sample_rate = 0.046875·22050 = 1033.59375` (exact in
binary floating point): `int` truncates to 1033, `round` gives 1034. -/
def truncSpec : SoundSpec :=
  { demoSpec with duration := 3/64 }

/-! ## Validation and serialization (`schema.py` via pydantic, C7)

An untyped input document is a JSON-like `Doc`.  Validation is modelled
as parse-then-check: `parseX` extracts and coerces the fields exactly
where pydantic's type layer would (required/optional/defaulted keys,
numeric widening, enums from their string values, `None` for optional
fields), and the `checkX` range/length/cross-field predicates above
guard the result — together they accept the same documents with the
same resulting values.  `dumpX` is `model_dump(by_alias=True,
mode='json')`: every field is emitted, optional `None` fields as
`null`, enums as their string values, the global settings under the
alias `global`.  (Not modelled: pydantic's laxer bool/str coercions —
e.g. bool from `"yes"` — which no serialized spec produces.) -/

inductive Doc where
  | null
  | bool (b : Bool)
  | num (q : ℚ)
  | str (s : String)
  | arr (xs : List Doc)
  | obj (fields : List (String × Doc))

/-- First binding of a key, as Python dict lookup on parsed JSON. -/
def getField (fields : List (String × Doc)) (k : String) : Option Doc :=
  (fields.find? fun p => p.1 = k).map (·.2)

def asObj : Doc → Option (List (String × Doc))
  | .obj f => some f
  | _ => none

def asArr : Doc → Option (List Doc)
  | .arr xs => some xs
  | _ => none

def asNum : Doc → Option ℚ
  | .num q => some q
  | _ => none

def asStr : Doc → Option String
  | .str s => some s
  | _ => none

def asBool : Doc → Option Bool
  | .bool b => some b
  | _ => none

/-- An integer-valued number for an `int` field. -/
def asIntD : Doc → Option ℤ
  | .num q => if q.den = 1 then some q.num else none
  | _ => none

/-- A nonnegative integer-valued number (`int` field with `ge=0`). -/
def asNatD (d : Doc) : Option ℕ :=
  (asIntD d).bind fun z => if 0 ≤ z then some z.toNat else none

/-- An optional field: missing or `null` is `None`. -/
def optD (p : Doc → Option α) : Option Doc → Option (Option α)
  | none => some none
  | some .null => some none
  | some d => (p d).map some

/-- A field with a default: missing takes the default, `null` is not a
valid value for a non-optional field. -/
def withDefault (default : α) (p : Doc → Option α) : Option Doc → Option α
  | none => some default
  | some d => p d

/-- `Option`-valued `mapM` with simple equations. -/
def mapMOpt (f : α → Option β) : List α → Option (List β)
  | [] => some []
  | x :: xs =>
    match f x with
    | none => none
    | some y => (mapMOpt f xs).map (y :: ·)

def parseWaveformD : Doc → Option Waveform
  | .str "sine" => some .sine
  | .str "triangle" => some .triangle
  | .str "square" => some .square
  | .str "saw" => some .saw
  | _ => none

def parseCurveD : Doc → Option Curve
  | .str "linear" => some .linear
  | .str "exponential" => some .exponential
  | _ => none

def parseNoiseColorD : Doc → Option NoiseColor
  | .str "white" => some .white
  | .str "pink" => some .pink
  | _ => none

def parseImpulseKindD : Doc → Option ImpulseKind
  | .str "click" => some .click
  | .str "tap" => some .tap
  | .str "metal_ping" => some .metal_ping
  | _ => none

def parseShapeD : Doc → Option EnvelopeShape
  | .str "exp" => some .exp
  | .str "lin" => some .lin
  | .str "adsr" => some .adsr
  | _ => none

def parseFilterTypeD : Doc → Option FilterType
  | .str "lp1" => some .lp1
  | .str "hp1" => some .hp1
  | .str "biquad_lp" => some .biquad_lp
  | .str "biquad_hp" => some .biquad_hp
  | .str "biquad_bp" => some .biquad_bp
  | .str "notch" => some .notch
  | _ => none

def parseFXTypeD : Doc → Option FXType
  | .str "softclip" => some .softclip
  | .str "bitcrush" => some .bitcrush
  | .str "delay" => some .delay
  | .str "normalize" => some .normalize
  | _ => none

def parseLayerTypeD : Doc → Option LayerType
  | .str "osc" => some .osc
  | .str "chirp" => some .chirp
  | .str "fm" => some .fm
  | .str "noise" => some .noise
  | .str "impulse" => some .impulse
  | _ => none

def parseParamKindD : Doc → Option ParamKind
  | .str "slider" => some .slider
  | .str "select" => some .select
  | .str "checkbox" => some .checkbox
  | _ => none

def parsePDefaultD : Doc → Option PDefault
  | .num q => some (.num q)
  | .bool b => some (.bool b)
  | .str s => some (.str s)
  | _ => none

def waveformVal : Waveform → String
  | .sine => "sine"
  | .triangle => "triangle"
  | .square => "square"
  | .saw => "saw"
  | .other _ => ""

def curveVal : Curve → String
  | .linear => "linear"
  | .exponential => "exponential"

def noiseColorVal : NoiseColor → String
  | .white => "white"
  | .pink => "pink"

def impulseKindVal : ImpulseKind → String
  | .click => "click"
  | .tap => "tap"
  | .metal_ping => "metal_ping"

def shapeVal : EnvelopeShape → String
  | .exp => "exp"
  | .lin => "lin"
  | .adsr => "adsr"

def filterTypeVal : FilterType → String
  | .lp1 => "lp1"
  | .hp1 => "hp1"
  | .biquad_lp => "biquad_lp"
  | .biquad_hp => "biquad_hp"
  | .biquad_bp => "biquad_bp"
  | .notch => "notch"

def fxTypeVal : FXType → String
  | .softclip => "softclip"
  | .bitcrush => "bitcrush"
  | .delay => "delay"
  | .normalize => "normalize"

def layerTypeVal : LayerType → String
  | .osc => "osc"
  | .chirp => "chirp"
  | .fm => "fm"
  | .noise => "noise"
  | .impulse => "impulse"

def paramKindVal : ParamKind → String
  | .slider => "slider"
  | .select => "select"
  | .checkbox => "checkbox"

def optNumDoc : Option ℚ → Doc
  | none => .null
  | some q => .num q

def optIntDoc : Option ℤ → Doc
  | none => .null
  | some z => .num (z : ℚ)

def parseHarmonic (d : Doc) : Option Harmonic := do
  let o ← asObj d
  let mul ← (getField o "mul").bind asNum
  let amp ← (getField o "amp").bind asNum
  pure { mul := mul, amp := amp }

def validateHarmonic (d : Doc) : Option Harmonic :=
  (parseHarmonic d).bind fun h => if checkHarmonic h then some h else none

def dumpHarmonic (h : Harmonic) : Doc :=
  .obj [("mul", .num h.mul), ("amp", .num h.amp)]

def parseEnvelope (d : Doc) : Option Envelope := do
  let o ← asObj d
  let attack ← (getField o "attack").bind asNum
  let decay ← (getField o "decay").bind asNum
  let sustain ← optD asNum (getField o "sustain")
  let release ← optD asNum (getField o "release")
  let shape ← withDefault .exp parseShapeD (getField o "shape")
  pure { attack := attack, decay := decay, sustain := sustain,
         release := release, shape := shape }

def validateEnvelope (d : Doc) : Option Envelope :=
  (parseEnvelope d).bind fun e => if checkEnvelope e then some e else none

def dumpEnvelope (e : Envelope) : Doc :=
  .obj [("attack", .num e.attack), ("decay", .num e.decay),
    ("sustain", optNumDoc e.sustain), ("release", optNumDoc e.release),
    ("shape", .str (shapeVal e.shape))]

def parseModulation (d : Doc) : Option Modulation := do
  let o ← asObj d
  let th ← withDefault 0 asNum (getField o "tremolo_hz")
  let td ← withDefault 0 asNum (getField o "tremolo_depth")
  let ph ← withDefault 0 asNum (getField o "pitch_lfo_hz")
  let pd ← withDefault 0 asNum (getField o "pitch_lfo_depth")
  pure { tremolo_hz := th, tremolo_depth := td, pitch_lfo_hz := ph, pitch_lfo_depth := pd }

def validateModulation (d : Doc) : Option Modulation :=
  (parseModulation d).bind fun m => if checkModulation m then some m else none

def dumpModulation (m : Modulation) : Doc :=
  .obj [("tremolo_hz", .num m.tremolo_hz), ("tremolo_depth", .num m.tremolo_depth),
    ("pitch_lfo_hz", .num m.pitch_lfo_hz), ("pitch_lfo_depth", .num m.pitch_lfo_depth)]

def parseFilter (d : Doc) : Option Filter := do
  let o ← asObj d
  let ty ← (getField o "type").bind parseFilterTypeD
  let cutoff ← (getField o "cutoff").bind asNum
  let q ← withDefault 0.707 asNum (getField o "q")
  let ce ← optD asNum (getField o "cutoff_end")
  let curve ← withDefault .linear parseCurveD (getField o "curve")
  pure { type := ty, cutoff := cutoff, q := q, cutoff_end := ce, curve := curve }

def validateFilter (d : Doc) : Option Filter :=
  (parseFilter d).bind fun f => if checkFilter f then some f else none

def dumpFilter (f : Filter) : Doc :=
  .obj [("type", .str (filterTypeVal f.type)), ("cutoff", .num f.cutoff),
    ("q", .num f.q), ("cutoff_end", optNumDoc f.cutoff_end),
    ("curve", .str (curveVal f.curve))]

def parseHarmonicsField (od : Option Doc) : Option (Option (List Harmonic)) :=
  optD (fun d => (asArr d).bind (mapMOpt validateHarmonic)) od

def dumpHarmonicsField : Option (List Harmonic) → Doc
  | none => .null
  | some hs => .arr (hs.map dumpHarmonic)

def parseOscParams (d : Doc) : Option OscParams := do
  let o ← asObj d
  let w ← (getField o "waveform").bind parseWaveformD
  let freq ← (getField o "freq").bind asNum
  let detune ← withDefault 0 asNum (getField o "detune")
  let hs ← parseHarmonicsField (getField o "harmonics")
  pure { waveform := w, freq := freq, detune := detune, harmonics := hs }

def validateOscParams (d : Doc) : Option OscParams :=
  (parseOscParams d).bind fun o => if checkOsc o then some o else none

def dumpOscParams (o : OscParams) : Doc :=
  .obj [("waveform", .str (waveformVal o.waveform)), ("freq", .num o.freq),
    ("detune", .num o.detune), ("harmonics", dumpHarmonicsField o.harmonics)]

def parseChirpParams (d : Doc) : Option ChirpParams := do
  let o ← asObj d
  let w ← (getField o "waveform").bind parseWaveformD
  let fs ← (getField o "f_start").bind asNum
  let fe ← (getField o "f_end").bind asNum
  let curve ← withDefault .exponential parseCurveD (getField o "curve")
  let vh ← withDefault 0 asNum (getField o "vibrato_hz")
  let vd ← withDefault 0 asNum (getField o "vibrato_depth")
  let hs ← parseHarmonicsField (getField o "harmonics")
  pure { waveform := w, f_start := fs, f_end := fe, curve := curve,
         vibrato_hz := vh, vibrato_depth := vd, harmonics := hs }

def validateChirpParams (d : Doc) : Option ChirpParams :=
  (parseChirpParams d).bind fun c => if checkChirp c then some c else none

def dumpChirpParams (c : ChirpParams) : Doc :=
  .obj [("waveform", .str (waveformVal c.waveform)), ("f_start", .num c.f_start),
    ("f_end", .num c.f_end), ("curve", .str (curveVal c.curve)),
    ("vibrato_hz", .num c.vibrato_hz), ("vibrato_depth", .num c.vibrato_depth),
    ("harmonics", dumpHarmonicsField c.harmonics)]

/-- `FMParams.waveform : Literal["sine"] = "sine"` carries no
information; the parser accepts a missing key or the literal string. -/
def litSine : Doc → Option Unit
  | .str "sine" => some ()
  | _ => none

/-- The `version : Literal["soundspec-1"]` field: missing (it has a
default) or the exact literal string. -/
def litVersion : Doc → Option Unit
  | .str "soundspec-1" => some ()
  | _ => none

def parseFMParams (d : Doc) : Option FMParams := do
  let o ← asObj d
  let cf ← (getField o "carrier_freq").bind asNum
  let mf ← (getField o "mod_freq").bind asNum
  let ix ← (getField o "index").bind asNum
  let _ ← withDefault () litSine (getField o "waveform")
  let br ← withDefault 0.5 asNum (getField o "brightness")
  pure { carrier_freq := cf, mod_freq := mf, index := ix, brightness := br }

def validateFMParams (d : Doc) : Option FMParams :=
  (parseFMParams d).bind fun f => if checkFM f then some f else none

def dumpFMParams (f : FMParams) : Doc :=
  .obj [("carrier_freq", .num f.carrier_freq), ("mod_freq", .num f.mod_freq),
    ("index", .num f.index), ("waveform", .str "sine"),
    ("brightness", .num f.brightness)]

def parseNoiseParams (d : Doc) : Option NoiseParams := do
  let o ← asObj d
  let color ← (getField o "color").bind parseNoiseColorD
  let cs ← optD asNum (getField o "cutoff_start")
  let ce ← optD asNum (getField o "cutoff_end")
  let cc ← withDefault .linear parseCurveD (getField o "cutoff_curve")
  pure { color := color, cutoff_start := cs, cutoff_end := ce, cutoff_curve := cc }

def validateNoiseParams (d : Doc) : Option NoiseParams :=
  (parseNoiseParams d).bind fun n => if checkNoise n then some n else none

def dumpNoiseParams (n : NoiseParams) : Doc :=
  .obj [("color", .str (noiseColorVal n.color)),
    ("cutoff_start", optNumDoc n.cutoff_start), ("cutoff_end", optNumDoc n.cutoff_end),
    ("cutoff_curve", .str (curveVal n.cutoff_curve))]

def parseImpulseParams (d : Doc) : Option ImpulseParams := do
  let o ← asObj d
  let kind ← (getField o "kind").bind parseImpulseKindD
  let width ← (getField o "width").bind asNum
  let tf ← optD asNum (getField o "tone_freq")
  pure { kind := kind, width := width, tone_freq := tf }

def validateImpulseParams (d : Doc) : Option ImpulseParams :=
  (parseImpulseParams d).bind fun im => if checkImpulse im then some im else none

def dumpImpulseParams (im : ImpulseParams) : Doc :=
  .obj [("kind", .str (impulseKindVal im.kind)), ("width", .num im.width),
    ("tone_freq", optNumDoc im.tone_freq)]

def parseLayer (d : Doc) : Option Layer := do
  let o ← asObj d
  let id ← (getField o "id").bind asStr
  let ty ← (getField o "type").bind parseLayerTypeD
  let amp ← (getField o "amp").bind asNum
  let pan ← withDefault 0 asNum (getField o "pan")
  let env ← (getField o "env").bind validateEnvelope
  let mod ← optD validateModulation (getField o "mod")
  let filt ← optD (fun dv => (asArr dv).bind (mapMOpt validateFilter))
    (getField o "filter")
  let phase ← withDefault 0 asNum (getField o "phase")
  let osc ← optD validateOscParams (getField o "osc")
  let chirp ← optD validateChirpParams (getField o "chirp")
  let fm ← optD validateFMParams (getField o "fm")
  let noise ← optD validateNoiseParams (getField o "noise")
  let impulse ← optD validateImpulseParams (getField o "impulse")
  pure { id := id, type := ty, amp := amp, pan := pan, env := env, mod := mod,
         filter := filt, phase := phase, osc := osc, chirp := chirp, fm := fm,
         noise := noise, impulse := impulse }

def validateLayer (d : Doc) : Option Layer :=
  (parseLayer d).bind fun l => if checkLayer l then some l else none

def dumpFiltersField : Option (List Filter) → Doc
  | none => .null
  | some fs => .arr (fs.map dumpFilter)

def dumpOptPayload (f : α → Doc) : Option α → Doc
  | none => .null
  | some x => f x

def dumpLayer (l : Layer) : Doc :=
  .obj [("id", .str l.id), ("type", .str (layerTypeVal l.type)),
    ("amp", .num l.amp), ("pan", .num l.pan), ("env", dumpEnvelope l.env),
    ("mod", dumpOptPayload dumpModulation l.mod),
    ("filter", dumpFiltersField l.filter), ("phase", .num l.phase),
    ("osc", dumpOptPayload dumpOscParams l.osc),
    ("chirp", dumpOptPayload dumpChirpParams l.chirp),
    ("fm", dumpOptPayload dumpFMParams l.fm),
    ("noise", dumpOptPayload dumpNoiseParams l.noise),
    ("impulse", dumpOptPayload dumpImpulseParams l.impulse)]

def parseFXParams (d : Doc) : Option FXParams := do
  let o ← asObj d
  let drive ← optD asNum (getField o "drive")
  let steps ← optD asIntD (getField o "steps")
  let hold ← optD asIntD (getField o "hold_samples")
  let tm ← optD asNum (getField o "time_ms")
  let fb ← optD asNum (getField o "feedback")
  let mx ← optD asNum (getField o "mix")
  let tp ← optD asNum (getField o "target_peak")
  pure { drive := drive, steps := steps, hold_samples := hold, time_ms := tm,
         feedback := fb, mix := mx, target_peak := tp }

def validateFXParams (d : Doc) : Option FXParams :=
  (parseFXParams d).bind fun p => if checkFXParams p then some p else none

def dumpFXParams (p : FXParams) : Doc :=
  .obj [("drive", optNumDoc p.drive), ("steps", optIntDoc p.steps),
    ("hold_samples", optIntDoc p.hold_samples), ("time_ms", optNumDoc p.time_ms),
    ("feedback", optNumDoc p.feedback), ("mix", optNumDoc p.mix),
    ("target_peak", optNumDoc p.target_peak)]

def parseFX (d : Doc) : Option FX := do
  let o ← asObj d
  let ty ← (getField o "type").bind parseFXTypeD
  let en ← withDefault true asBool (getField o "enabled")
  let params ← (getField o "params").bind validateFXParams
  pure { type := ty, enabled := en, params := params }

def validateFX (d : Doc) : Option FX :=
  (parseFX d).bind fun fx => if checkFX fx then some fx else none

def dumpFX (fx : FX) : Doc :=
  .obj [("type", .str (fxTypeVal fx.type)), ("enabled", .bool fx.enabled),
    ("params", dumpFXParams fx.params)]

def parseParam (d : Doc) : Option Param := do
  let o ← asObj d
  let id ← (getField o "id").bind asStr
  let label ← (getField o "label").bind asStr
  let kind ← (getField o "kind").bind parseParamKindD
  let path ← (getField o "path").bind asStr
  let mn ← optD asNum (getField o "min")
  let mx ← optD asNum (getField o "max")
  let st ← optD asNum (getField o "step")
  let df ← optD parsePDefaultD (getField o "default")
  let opts ← optD (fun dv => (asArr dv).bind (mapMOpt asStr)) (getField o "options")
  pure { id := id, label := label, kind := kind, path := path, min := mn,
         max := mx, step := st, default := df, options := opts }

def dumpPDefault : PDefault → Doc
  | .num q => .num q
  | .bool b => .bool b
  | .str s => .str s

def dumpOptStrList : Option (List String) → Doc
  | none => .null
  | some ss => .arr (ss.map Doc.str)

def dumpParam (p : Param) : Doc :=
  .obj [("id", .str p.id), ("label", .str p.label),
    ("kind", .str (paramKindVal p.kind)), ("path", .str p.path),
    ("min", optNumDoc p.min), ("max", optNumDoc p.max),
    ("step", optNumDoc p.step), ("default", dumpOptPayload dumpPDefault p.default),
    ("options", dumpOptStrList p.options)]

def parseGlobal (d : Doc) : Option GlobalSettings := do
  let o ← asObj d
  let amp ← (getField o "amp").bind asNum
  let nrm ← withDefault false asBool (getField o "normalize")
  pure { amp := amp, normalize := nrm }

def dumpGlobal (g : GlobalSettings) : Doc :=
  .obj [("amp", .num g.amp), ("normalize", .bool g.normalize)]

/-- Field extraction of `SoundSpec.model_validate`: `version` must be
missing (default) or the exact literal; the global settings are read
from the alias `global`, or from the field name `global_`
(`populate_by_name=True`); collections default to `[]`. -/
def parseSpec (d : Doc) : Option SoundSpec := do
  let o ← asObj d
  let _ ← withDefault () litVersion (getField o "version")
  let name ← (getField o "name").bind asStr
  let description ← (getField o "description").bind asStr
  let sr ← (getField o "sample_rate").bind asNatD
  let duration ← (getField o "duration").bind asNum
  let seed ← (getField o "seed").bind asNatD
  let g ← (match getField o "global" with
    | some dg => some dg
    | none => getField o "global_").bind parseGlobal
  let layers ← (getField o "layers").bind fun dv => (asArr dv).bind (mapMOpt validateLayer)
  let fx ← withDefault [] (fun dv => (asArr dv).bind (mapMOpt validateFX))
    (getField o "fx_chain")
  let ps ← withDefault [] (fun dv => (asArr dv).bind (mapMOpt parseParam))
    (getField o "params")
  pure { name := name, description := description, sample_rate := sr,
         duration := duration, seed := seed, global_ := g, layers := layers,
         fx_chain := fx, params := ps }

/-- `SoundSpec.model_validate`: total — a fully valid spec or a
validation error (`none`). -/
def validateSpec (d : Doc) : Option SoundSpec :=
  (parseSpec d).bind fun s => if ValidSpec s then some s else none

/-- `spec.model_dump(by_alias=True, mode='json')`. -/
def dumpSpec (s : SoundSpec) : Doc :=
  .obj [("version", .str "soundspec-1"), ("name", .str s.name),
    ("description", .str s.description), ("sample_rate", .num (s.sample_rate : ℚ)),
    ("duration", .num s.duration), ("seed", .num (s.seed : ℚ)),
    ("global", dumpGlobal s.global_),
    ("layers", .arr (s.layers.map dumpLayer)),
    ("fx_chain", .arr (s.fx_chain.map dumpFX)),
    ("params", .arr (s.params.map dumpParam))]

/-! ## Difference-counting lemmas -/

@[simp] theorem dOne_self [DecidableEq α] (x : α) : dOne x x = 0 := by
  simp [dOne]

@[simp] theorem dOne_le_one [DecidableEq α] (x y : α) : dOne x y ≤ 1 := by
  unfold dOne
  split <;> omega

@[simp] theorem diffEnvelope_self (e : Envelope) : diffEnvelope e e = 0 := by
  simp [diffEnvelope]

@[simp] theorem diffModulation_self (m : Modulation) : diffModulation m m = 0 := by
  simp [diffModulation]

@[simp] theorem diffOsc_self (o : OscParams) : diffOsc o o = 0 := by
  simp [diffOsc]

@[simp] theorem diffChirp_self (c : ChirpParams) : diffChirp c c = 0 := by
  simp [diffChirp]

@[simp] theorem diffFM_self (f : FMParams) : diffFM f f = 0 := by
  simp [diffFM]

@[simp] theorem diffNoise_self (n : NoiseParams) : diffNoise n n = 0 := by
  simp [diffNoise]

@[simp] theorem diffImpulse_self (im : ImpulseParams) : diffImpulse im im = 0 := by
  simp [diffImpulse]

@[simp] theorem diffOpt_some (f : α → α → ℕ) (a b : α) :
    diffOpt f (some a) (some b) = f a b := rfl

@[simp] theorem diffOptMod_self (x : Option Modulation) : diffOpt diffModulation x x = 0 := by
  cases x <;> simp [diffOpt]

@[simp] theorem diffOptOsc_self (x : Option OscParams) : diffOpt diffOsc x x = 0 := by
  cases x <;> simp [diffOpt]

@[simp] theorem diffOptChirp_self (x : Option ChirpParams) : diffOpt diffChirp x x = 0 := by
  cases x <;> simp [diffOpt]

@[simp] theorem diffOptFM_self (x : Option FMParams) : diffOpt diffFM x x = 0 := by
  cases x <;> simp [diffOpt]

@[simp] theorem diffOptNoise_self (x : Option NoiseParams) : diffOpt diffNoise x x = 0 := by
  cases x <;> simp [diffOpt]

@[simp] theorem diffOptImpulse_self (x : Option ImpulseParams) : diffOpt diffImpulse x x = 0 := by
  cases x <;> simp [diffOpt]

@[simp] theorem diffLayer_self (l : Layer) : diffLayer l l = 0 := by
  simp [diffLayer]

@[simp] theorem diffFXParams_self (p : FXParams) : diffFXParams p p = 0 := by
  simp [diffFXParams]

@[simp] theorem diffFX_self (fx : FX) : diffFX fx fx = 0 := by
  simp [diffFX]

@[simp] theorem diffListLayer_self (ls : List Layer) : diffList diffLayer ls ls = 0 := by
  induction ls with
  | nil => rfl
  | cons l rest ih => simp [diffList, ih]

@[simp] theorem diffListFX_self (fxs : List FX) : diffList diffFX fxs fxs = 0 := by
  induction fxs with
  | nil => rfl
  | cons fx rest ih => simp [diffList, ih]

@[simp] theorem diffListParam_self (ps : List Param) : diffList dOne ps ps = 0 := by
  induction ps with
  | nil => rfl
  | cons p rest ih => simp [diffList, ih]

/-- "The update was sound": on success at most one leaf changed, on
failure the object is untouched. -/
def goodUpd (diff : α → α → ℕ) (orig : α) (r : Bool × α) : Prop :=
  cond r.1 (diff orig r.2 ≤ 1) (r.2 = orig)

theorem trySetQ_good (diff : α → α → ℕ) (v : Value) (orig : α) (set : ℚ → α)
    (h : ∀ q, diff orig (set q) ≤ 1) : goodUpd diff orig (trySetQ v orig set) := by
  unfold trySetQ goodUpd
  cases coerceFloat v <;> simp [h]

theorem trySetZ_good (diff : α → α → ℕ) (v : Value) (orig : α) (set : ℤ → α)
    (h : ∀ z, diff orig (set z) ≤ 1) : goodUpd diff orig (trySetZ v orig set) := by
  unfold trySetZ goodUpd
  cases coerceInt v <;> simp [h]

/-! ## Length preservation lemmas -/

theorem mapIdxQ_length (f : ℕ → ℚ → ℚ) (i : ℕ) (l : List ℚ) :
    (mapIdxQ f i l).length = l.length := by
  induction l generalizing i with
  | nil => rfl
  | cons x xs ih => simp [mapIdxQ, ih]

theorem mixInto_length (samples layer_samples : List ℚ) :
    (mixInto samples layer_samples).length = samples.length :=
  mapIdxQ_length _ _ _

theorem mixLayers_length (ops : Ops) (d : ℚ) (sr : ℕ) (ls : List Layer)
    (samples : List ℚ) (rng : Rng) (out : List ℚ) (rng' : Rng)
    (h : mixLayers ops d sr ls samples rng = some (out, rng')) :
    out.length = samples.length := by
  induction ls generalizing samples rng with
  | nil =>
    simp only [mixLayers, Option.some.injEq, Prod.mk.injEq] at h
    rw [← h.1]
  | cons layer rest ih =>
    simp only [mixLayers] at h
    rcases hr : render_layer ops layer d sr rng with ⟨o, r2⟩
    rw [hr] at h
    cases o with
    | none => exact absurd h (by simp)
    | some lsamp =>
      have := ih _ _ h
      rw [this, mixInto_length]

theorem bitcrush_go_length (steps hold : ℤ) (i : ℕ) (held : ℚ) (l : List ℚ) :
    (bitcrush_go steps hold i held l).length = l.length := by
  induction l generalizing i held with
  | nil => rfl
  | cons x xs ih => simp [bitcrush_go, ih]

theorem delay_go_length (feedback mix : ℚ) (buffer l : List ℚ) :
    (delay_go feedback mix buffer l).length = l.length := by
  induction l generalizing buffer with
  | nil => rfl
  | cons x xs ih => simp [delay_go, ih]

theorem normalize_samples_length (samples : List ℚ) (tp : ℚ) :
    (normalize_samples samples tp).length = samples.length := by
  by_cases h : 0 < maxAbs samples <;> simp [normalize_samples, h]

theorem apply_softclip_length (samples : List ℚ) (drive : ℚ) :
    (apply_softclip samples drive).length = samples.length := by
  simp [apply_softclip]

theorem apply_bitcrush_length (samples : List ℚ) (st ho : ℤ) (out : List ℚ)
    (h : apply_bitcrush samples st ho = some out) : out.length = samples.length := by
  cases samples with
  | nil => simpa [apply_bitcrush] using h.symm
  | cons s rest =>
    by_cases hz : ho = 0
    · simp [apply_bitcrush, hz] at h
    · simp only [apply_bitcrush, if_neg hz, Option.some.injEq] at h
      rw [← h, bitcrush_go_length]

theorem apply_delay_length (samples : List ℚ) (tm fb mx : ℚ) (sr : ℕ)
    (out : List ℚ) (h : apply_delay samples tm fb mx sr = some out) :
    out.length = samples.length := by
  cases samples with
  | nil => simpa [apply_delay] using h.symm
  | cons s rest =>
    by_cases hz : pyTruncZ (tm * (sr : ℚ) / 1000) ≤ 0
    · simp [apply_delay, hz] at h
    · simp only [apply_delay, if_neg hz, Option.some.injEq] at h
      rw [← h, delay_go_length]

theorem apply_fx_length (samples : List ℚ) (fx : FX) (sr : ℕ) (out : List ℚ)
    (h : apply_fx samples fx sr = some out) : out.length = samples.length := by
  unfold apply_fx at h
  cases hty : fx.type <;> rw [hty] at h <;> dsimp only at h
  · rcases hd : fx.params.drive with _ | d <;> rw [hd] at h
    · exact absurd h (by simp)
    · cases h
      exact apply_softclip_length samples d
  · rcases hs : fx.params.steps with _ | st <;>
      rcases hh : fx.params.hold_samples with _ | ho <;>
        rw [hs, hh] at h <;> cases samples with
    | nil => cases h; rfl
    | cons s rest =>
      first
      | exact apply_bitcrush_length _ _ _ _ h
      | exact absurd h (by simp)
  · rcases ht : fx.params.time_ms with _ | tm <;> rw [ht] at h <;> (try dsimp only at h)
    · exact absurd h (by simp)
    · cases samples with
      | nil => cases h; rfl
      | cons s rest =>
        by_cases hz : pyTruncZ (tm * (sr : ℚ) / 1000) ≤ 0
        · rw [if_pos hz] at h; exact absurd h (by simp)
        · rw [if_neg hz] at h
          rcases hf : fx.params.feedback with _ | fb <;>
            rcases hm : fx.params.mix with _ | mx <;>
              rw [hf, hm] at h <;> (try dsimp only at h)
          · exact absurd h (by simp)
          · exact absurd h (by simp)
          · exact absurd h (by simp)
          · exact apply_delay_length _ _ _ _ _ _ h
  · cases samples with
    | nil => exact absurd h (by simp)
    | cons s rest =>
      rcases ht : fx.params.target_peak with _ | tp <;> rw [ht] at h <;> (try dsimp only at h)
      · by_cases hp : 0 < maxAbs (s :: rest)
        · rw [if_pos hp] at h; exact absurd h (by simp)
        · rw [if_neg hp] at h
          cases h; rfl
      · cases h
        exact normalize_samples_length _ _

theorem applyFxChain_length (sr : ℕ) (chain : List FX) (samples out : List ℚ)
    (h : applyFxChain sr chain samples = some out) :
    out.length = samples.length := by
  induction chain generalizing samples with
  | nil =>
    simp only [applyFxChain, Option.some.injEq] at h
    rw [← h]
  | cons fx rest ih =>
    simp only [applyFxChain] at h
    by_cases he : fx.enabled
    · rw [if_pos he] at h
      rcases hfx : apply_fx samples fx sr with _ | mid <;> rw [hfx] at h
      · exact absurd h (by simp)
      · have h' : applyFxChain sr rest mid = some out := h
        rw [ih _ h', apply_fx_length samples fx sr mid hfx]
    · rw [if_neg he] at h
      exact ih _ h

theorem render_samples_length (ops : Ops) (spec : SoundSpec) (out : List ℚ)
    (h : render_samples ops spec = some out) : out.length = numSamples spec := by
  unfold render_samples at h
  rcases hmix : mixLayers ops spec.duration spec.sample_rate spec.layers
      (List.replicate (numSamples spec) 0) ⟨spec.seed, 0⟩ with _ | ⟨mixed, rng⟩
  · rw [hmix] at h; exact absurd h (by simp)
  · rw [hmix] at h
    dsimp only at h
    have hmlen : mixed.length = numSamples spec := by
      have := mixLayers_length ops spec.duration spec.sample_rate spec.layers
        (List.replicate (numSamples spec) 0) ⟨spec.seed, 0⟩ mixed rng hmix
      simpa using this
    rcases hfx : applyFxChain spec.sample_rate spec.fx_chain
        (mixed.map fun s => s * spec.global_.amp) with _ | fxed
    · rw [hfx] at h; exact absurd h (by simp)
    · rw [hfx] at h
      dsimp only at h
      have hflen : fxed.length = numSamples spec := by
        have := applyFxChain_length spec.sample_rate spec.fx_chain _ _ hfx
        simpa [hmlen] using this
      by_cases hn : spec.global_.normalize
      · rw [if_pos hn] at h
        by_cases he : fxed.isEmpty
        · rw [if_pos he] at h; exact absurd h (by simp)
        · rw [if_neg he] at h
          cases h
          rw [normalize_samples_length, hflen]
      · rw [if_neg hn] at h
        cases h
        exact hflen

/-! ## Claims about the renderer -/

/-- C1. For every valid SoundSpec, rendering it twice (with no mutation
in between) yields two identical sample sequences and byte-identical WAV
bytes, for all seed values.  The embedding threads the pseudo-random
stream explicitly: `render_samples` re-seeds a fresh stream from
`spec.seed` on every call and touches no other state, so two runs over
the same spec agree. -/
theorem c1_render_deterministic (ops : Ops) (spec : SoundSpec)
    (_hv : ValidSpec spec = true)
    (r1 r2 : Option (List ℚ)) (w1 w2 : Option (List ℕ))
    (h1 : r1 = render_samples ops spec) (h2 : r2 = render_samples ops spec)
    (hw1 : w1 = render_wav_bytes ops spec) (hw2 : w2 = render_wav_bytes ops spec) :
    r1 = r2 ∧ w1 = w2 := by
  subst h1; subst h2; subst hw1; subst hw2
  exact ⟨rfl, rfl⟩

/-- Witness for C1 at the concrete demo spec. -/
theorem c1_render_deterministic_witness :
    ValidSpec demoSpec = true ∧
      (render_samples ratOpsDemo demoSpec = render_samples ratOpsDemo demoSpec ∧
        render_wav_bytes ratOpsDemo demoSpec = render_wav_bytes ratOpsDemo demoSpec) :=
  ⟨by with_unfolding_all decide,
    c1_render_deterministic ratOpsDemo demoSpec (by with_unfolding_all decide)
      _ _ _ _ rfl rfl rfl rfl⟩

/-- C2 (the code violates it).  `noDriveSpec` passes every schema check
(`FXParams` fields are all optional, and the spec tolerates unused
fields), yet rendering fails: `apply_softclip(samples, None)` evaluates
`s * None` and raises a `TypeError`, modelled by `render_samples = none`.
The spec's claim that the engine is total over validated specs is the
documented intent; the code crashes on it. -/
theorem c2_engine_not_total_on_missing_drive :
    ValidSpec noDriveSpec = true ∧ render_samples ratOpsDemo noDriveSpec = none := by
  constructor
  · with_unfolding_all decide
  · with_unfolding_all rfl

/-- C3 counterexample: the claim says `round(duration·sample_rate)`
samples, but `render_samples` allocates `int(duration·sample_rate)`.
At `duration = 0.046875` (= 3/64, exact in binary floating point) and
`sample_rate = 22050` the product is 1033.59375: the code allocates
1033 samples, nearest-integer rounding would give 1034. -/
theorem c3_count_not_round :
    ValidSpec truncSpec = true ∧ numSamples truncSpec = 1033 ∧
      round (truncSpec.duration * (truncSpec.sample_rate : ℚ)) = (1034 : ℤ) ∧
      (1033 : ℕ) ≠ 1034 := by
  refine ⟨by with_unfolding_all decide, by with_unfolding_all decide, ?_, by decide⟩
  have : truncSpec.duration * (truncSpec.sample_rate : ℚ) = 33075/32 := by
    norm_num [truncSpec, demoSpec]
  rw [this, round_eq]
  norm_num

/-- C3 amended: the number of samples `render_samples` allocates and
returns equals `int(duration·sample_rate)` — the product truncated
toward zero (equivalently its floor, the product being nonnegative) —
not its nearest-integer rounding. -/
theorem c3_sample_count_truncates (ops : Ops) (spec : SoundSpec)
    (hv : ValidSpec spec = true) :
    (render_samples ops spec).elim True
      (fun out => (out.length : ℤ) = pyTruncZ (spec.duration * (spec.sample_rate : ℚ))) := by
  rcases hr : render_samples ops spec with _ | out
  · exact trivial
  · show (out.length : ℤ) = pyTruncZ (spec.duration * (spec.sample_rate : ℚ))
    have hlen := render_samples_length ops spec out hr
    have hdur : (0 : ℚ) ≤ spec.duration * (spec.sample_rate : ℚ) := by
      have h1 : (3/100 : ℚ) ≤ spec.duration := by
        have := hv
        unfold ValidSpec rangeQ at this
        simp only [Bool.and_eq_true, decide_eq_true_eq] at this
        exact this.1.1.1.1.1.1.1.1.1.1.2.1
      have h2 : (0 : ℚ) ≤ (spec.sample_rate : ℚ) := by positivity
      nlinarith
    have htrunc : pyTruncZ (spec.duration * (spec.sample_rate : ℚ)) =
        ⌊spec.duration * (spec.sample_rate : ℚ)⌋ := by
      unfold pyTruncZ
      rw [if_pos hdur]
    rw [hlen, htrunc]
    unfold numSamples pyInt pyTruncZ
    rw [if_pos hdur]
    have : (0 : ℤ) ≤ ⌊spec.duration * (spec.sample_rate : ℚ)⌋ :=
      Int.floor_nonneg.mpr hdur
    exact Int.toNat_of_nonneg this

/-- Witness for C3's amended theorem at the demo spec. -/
theorem c3_sample_count_truncates_witness :
    ValidSpec demoSpec = true ∧
      (render_samples ratOpsDemo demoSpec).elim True
        (fun out => (out.length : ℤ) =
          pyTruncZ (demoSpec.duration * (demoSpec.sample_rate : ℚ))) :=
  ⟨by with_unfolding_all decide,
    c3_sample_count_truncates ratOpsDemo demoSpec (by with_unfolding_all decide)⟩

set_option maxRecDepth 40000 in
/-- C5 counterexample: `twoSquareSpec` is valid, yet sample 0 of its
render is `2`: each full-amplitude square layer contributes `1` at
`t = 0` (linear envelope, attack 0), the mix adds them, and nothing in
`render_samples` clamps.  (The value is forced without touching the
abstracted transcendentals: square wave at phase 0, rational envelope.) -/
theorem c5_sample_exceeds_one :
    ValidSpec twoSquareSpec = true ∧
      sampleAt (render_samples ratOpsDemo twoSquareSpec) 0 = some 2 ∧
      ¬((-1 : ℚ) ≤ 2 ∧ (2 : ℚ) ≤ 1) := by
  refine ⟨by with_unfolding_all decide, by with_unfolding_all decide, by norm_num⟩

/-- C5 amended: samples produced by `render_samples` need not lie in
`[-1,1]` (layers mix additively and no clamp exists in the pipeline);
each sample is clamped into `[-1,1]` only by the WAV encoder
(`float_to_pcm16`), whose per-sample clamp always lands in `[-1,1]` and
whose PCM integers therefore lie in `[-32767, 32767]`. -/
theorem c5_clamp_only_in_encoder (samples : List ℚ) :
    (samples.all fun s => decide (-1 ≤ pcmClamp s ∧ pcmClamp s ≤ 1)) = true ∧
      (samples.all fun s => decide (-32767 ≤ pcmValue s ∧ pcmValue s ≤ 32767)) = true ∧
      float_to_pcm16 samples = samples.flatMap fun s => int16le (pcmValue s) := by
  refine ⟨?_, ?_, rfl⟩
  · rw [List.all_eq_true]
    intro s _
    have h1 : (-1 : ℚ) ≤ pcmClamp s := le_max_left _ _
    have h2 : pcmClamp s ≤ 1 := max_le (by norm_num) (min_le_left _ _)
    simp [h1, h2]
  · rw [List.all_eq_true]
    intro s _
    have h1 : (-1 : ℚ) ≤ pcmClamp s := le_max_left _ _
    have h2 : pcmClamp s ≤ 1 := max_le (by norm_num) (min_le_left _ _)
    have hlo : (-32767 : ℚ) ≤ pcmClamp s * 32767 := by nlinarith
    have hhi : pcmClamp s * 32767 ≤ 32767 := by nlinarith
    have : -32767 ≤ pcmValue s ∧ pcmValue s ≤ 32767 := by
      unfold pcmValue pyTruncZ
      constructor
      · split
        · have : (-32767 : ℤ) ≤ ⌊pcmClamp s * 32767⌋ := by
            rw [Int.le_floor]
            push_cast
            exact hlo
          exact this
        · rename_i hneg
          have h1' : ((⌊-(pcmClamp s * 32767)⌋ : ℤ) : ℚ) ≤ 32767 := by
            calc ((⌊-(pcmClamp s * 32767)⌋ : ℤ) : ℚ) ≤ -(pcmClamp s * 32767) :=
                Int.floor_le _
              _ ≤ 32767 := by linarith
          have h2' : ⌊-(pcmClamp s * 32767)⌋ ≤ 32767 := by exact_mod_cast h1'
          omega
      · split
        · have h1' : ((⌊pcmClamp s * 32767⌋ : ℤ) : ℚ) ≤ 32767 := by
            calc ((⌊pcmClamp s * 32767⌋ : ℤ) : ℚ) ≤ pcmClamp s * 32767 := Int.floor_le _
              _ ≤ 32767 := hhi
          exact_mod_cast h1'
        · rename_i hneg
          have h0 : (0 : ℚ) ≤ -(pcmClamp s * 32767) := by
            push_neg at hneg
            linarith
          have : (0 : ℤ) ≤ ⌊-(pcmClamp s * 32767)⌋ := Int.floor_nonneg.mpr h0
          omega
    simp [this.1, this.2]

/-- `softclip` by cases on the magnitude of its input. -/
theorem softclip_eq_branches (x : ℚ) :
    softclip x = if 1 < |x| then (if x < 0 then -1 else 1) else x - x ^ 3 / 3 := by
  unfold softclip
  by_cases h1 : 1 < x
  · rw [if_pos h1, if_pos (lt_of_lt_of_le h1 (le_abs_self x)),
      if_neg (by linarith : ¬x < 0)]
  · rw [if_neg h1]
    by_cases h2 : x < -1
    · have habs : 1 < |x| := by
        rw [abs_of_neg (by linarith)]
        linarith
      rw [if_pos h2, if_pos habs, if_pos (by linarith : x < 0)]
    · have habs : ¬1 < |x| :=
        not_lt.mpr (abs_le.mpr ⟨by linarith, by linarith⟩)
      rw [if_neg h2, if_neg habs]

/-- C6 counterexample: the claim's formula (cubic first, clip after)
disagrees with the code at `s = 1`, `drive = 2`: the code's `softclip`
clips the scaled input `2` to `1`, while scaling then `x − x³/3` then
clipping gives `2 − 8/3 = −2/3`. -/
theorem c6_claim_formula_refuted :
    apply_softclip [1] 2 = [1] ∧ softclipPerClaim 2 1 = -2/3 ∧ (1 : ℚ) ≠ -2/3 := by
  refine ⟨by with_unfolding_all decide, by with_unfolding_all decide, by norm_num⟩

/-- C6 amended: the softclip effect maps each sample `s` to: with
`x = s·drive`, the sign of `x` when `|x| > 1`, else `x − x³/3` — the
clip applies to the scaled input before the cubic, not to the cubic's
result. -/
theorem c6_softclip_amended (samples : List ℚ) (drive : ℚ) :
    apply_softclip samples drive = samples.map (softclipAmended drive) := by
  unfold apply_softclip
  have hfun : ∀ s : ℚ, softclip (s * drive) = softclipAmended drive s := by
    intro s
    rw [softclip_eq_branches]
    rfl
  exact List.map_congr_left fun s _ => hfun s

/-- C9. Every effect application that returns (softclip, bitcrush,
delay, normalize — dispatched by `apply_fx`) yields a buffer exactly as
long as its input, and consequently any buffer `render_samples` returns
has the length allocated in step 1 (`int(duration·sample_rate)` zeros),
whatever effects are enabled. -/
theorem c9_length_preserved :
    (∀ (samples : List ℚ) (fx : FX) (sr : ℕ),
        (apply_fx samples fx sr).elim True fun out => out.length = samples.length) ∧
      ∀ (ops : Ops) (spec : SoundSpec),
        (render_samples ops spec).elim True fun out => out.length = numSamples spec := by
  constructor
  · intro samples fx sr
    rcases h : apply_fx samples fx sr with _ | out
    · exact trivial
    · exact apply_fx_length samples fx sr out h
  · intro ops spec
    rcases h : render_samples ops spec with _ | out
    · exact trivial
    · exact render_samples_length ops spec out h

/-- A non-`tap` impulse consumes no draws: its output is the same for
every stream state and the state passes through untouched. -/
theorem render_impulse_const (ops : Ops) (im : ImpulseParams) (n sr : ℕ)
    (h : im.kind ≠ .tap) (r r' : Rng) :
    render_impulse ops im n sr r = ((render_impulse ops im n sr r').1, r) := by
  unfold render_impulse
  cases hk : im.kind
  · rfl
  · exact absurd hk h
  · rfl

/-- A `noRandLayer` base signal is independent of the stream state and
passes the stream through untouched. -/
theorem render_base_const (ops : Ops) (l : Layer) (n sr : ℕ)
    (h : noRandLayer l = true) (r r' : Rng) :
    render_base ops l n sr r = ((render_base ops l n sr r').1, r) := by
  unfold noRandLayer at h
  cases hty : l.type <;> rw [hty] at h <;> unfold render_base <;> rw [hty]
  · simp at h
  · cases him : l.impulse with
    | none => rfl
    | some im =>
      rw [him] at h
      simp only [Bool.and_eq_true, Bool.not_eq_eq_eq_not, Bool.not_true,
        beq_eq_false_iff_ne, ne_eq] at h
      have hk : im.kind ≠ .tap := h.2
      dsimp only
      rw [render_impulse_const ops im n sr hk r r']

/-- A layer satisfying `noRandLayer` renders independently of the stream
state and passes the stream through untouched. -/
theorem render_layer_const (ops : Ops) (l : Layer) (d : ℚ) (sr : ℕ)
    (h : noRandLayer l = true) (r r' : Rng) :
    render_layer ops l d sr r = ((render_layer ops l d sr r').1, r) := by
  unfold render_layer
  rw [render_base_const ops l (pyInt (d * (sr : ℚ))) sr h r r']
  dsimp only
  cases hb : (render_base ops l (pyInt (d * (sr : ℚ))) sr r').1 <;> rfl

/-- The mixed buffer produced by the layer loop does not depend on the
stream state when no layer draws from it. -/
theorem mixLayers_fst_const (ops : Ops) (d : ℚ) (sr : ℕ) (ls : List Layer)
    (h : ls.all noRandLayer = true) (samples : List ℚ) (r1 r2 : Rng) :
    (mixLayers ops d sr ls samples r1).map Prod.fst =
      (mixLayers ops d sr ls samples r2).map Prod.fst := by
  induction ls generalizing samples r1 r2 with
  | nil => rfl
  | cons l rest ih =>
    rw [List.all_cons, Bool.and_eq_true] at h
    show (mixLayers ops d sr (l :: rest) samples r1).map Prod.fst =
      (mixLayers ops d sr (l :: rest) samples r2).map Prod.fst
    unfold mixLayers
    rw [render_layer_const ops l d sr h.1 r1 r2,
      render_layer_const ops l d sr h.1 r2 r2]
    cases hb : (render_layer ops l d sr r2).1 with
    | none => rfl
    | some lsamp => exact ih h.2 (mixInto samples lsamp) r1 r2

/-- C10. Two valid SoundSpecs differing only in their seed render
identically when no layer is a noise layer and no impulse layer has kind
`tap`: those are the only consumers of the pseudo-random stream
(`rng.uniform` in `render_noise`, `rng.random` in the `tap` branch of
`render_impulse`). -/
theorem c10_seed_inert_without_noise_or_tap (ops : Ops) (spec : SoundSpec)
    (s1 s2 : ℕ) (h : spec.layers.all noRandLayer = true) :
    render_samples ops { spec with seed := s1 } =
      render_samples ops { spec with seed := s2 } := by
  unfold render_samples numSamples
  dsimp only
  have hfst := mixLayers_fst_const ops spec.duration spec.sample_rate spec.layers h
    (List.replicate (pyInt (spec.duration * (spec.sample_rate : ℚ))) 0) ⟨s1, 0⟩ ⟨s2, 0⟩
  rcases h1 : mixLayers ops spec.duration spec.sample_rate spec.layers
      (List.replicate (pyInt (spec.duration * (spec.sample_rate : ℚ))) 0) ⟨s1, 0⟩
    with _ | ⟨m1, ra⟩ <;>
    rcases h2 : mixLayers ops spec.duration spec.sample_rate spec.layers
        (List.replicate (pyInt (spec.duration * (spec.sample_rate : ℚ))) 0) ⟨s2, 0⟩
      with _ | ⟨m2, rb⟩ <;> rw [h1, h2] at hfst <;>
    simp only [Option.map_some', Option.map_none'] at hfst <;>
    first
      | rfl
      | exact Option.noConfusion hfst
      | rw [Option.some.inj hfst]

/-- Witness for C10 at the demo spec and seeds 0 and 7. -/
theorem c10_seed_inert_witness :
    demoSpec.layers.all noRandLayer = true ∧
      render_samples ratOpsDemo { demoSpec with seed := 0 } =
        render_samples ratOpsDemo { demoSpec with seed := 7 } :=
  ⟨by decide, c10_seed_inert_without_noise_or_tap ratOpsDemo demoSpec 0 7 (by decide)⟩

/-! ## Soundness of every path-resolver setter -/

theorem updateOscField_good (o : OscParams) (f : List Char) (v : Value) :
    goodUpd diffOsc o (updateOscField o f v) := by
  unfold updateOscField
  split_ifs
  · exact trySetQ_good _ _ _ _ fun q => by simp [diffOsc]
  · exact trySetQ_good _ _ _ _ fun q => by simp [diffOsc]
  · simp [goodUpd, diffOsc]
  · simp [goodUpd]

theorem updateChirpField_good (c : ChirpParams) (f : List Char) (v : Value) :
    goodUpd diffChirp c (updateChirpField c f v) := by
  unfold updateChirpField
  split_ifs
  · exact trySetQ_good _ _ _ _ fun q => by simp [diffChirp]
  · exact trySetQ_good _ _ _ _ fun q => by simp [diffChirp]
  · exact trySetQ_good _ _ _ _ fun q => by simp [diffChirp]
  · exact trySetQ_good _ _ _ _ fun q => by simp [diffChirp]
  · simp [goodUpd, diffChirp]
  · simp [goodUpd]

theorem updateFMField_good (f : FMParams) (fld : List Char) (v : Value) :
    goodUpd diffFM f (updateFMField f fld v) := by
  unfold updateFMField
  split_ifs
  · exact trySetQ_good _ _ _ _ fun q => by simp [diffFM]
  · exact trySetQ_good _ _ _ _ fun q => by simp [diffFM]
  · exact trySetQ_good _ _ _ _ fun q => by simp [diffFM]
  · exact trySetQ_good _ _ _ _ fun q => by simp [diffFM]
  · simp [goodUpd]

theorem updateNoiseField_good (n : NoiseParams) (f : List Char) (v : Value) :
    goodUpd diffNoise n (updateNoiseField n f v) := by
  unfold updateNoiseField
  split_ifs
  · exact trySetQ_good _ _ _ _ fun q => by simp [diffNoise]
  · exact trySetQ_good _ _ _ _ fun q => by simp [diffNoise]
  · simp [goodUpd]

theorem updateImpulseField_good (im : ImpulseParams) (f : List Char) (v : Value) :
    goodUpd diffImpulse im (updateImpulseField im f v) := by
  unfold updateImpulseField
  split_ifs
  · exact trySetQ_good _ _ _ _ fun q => by simp [diffImpulse]
  · exact trySetQ_good _ _ _ _ fun q => by simp [diffImpulse]
  · simp [goodUpd]

theorem updateEnvField_good (e : Envelope) (f : List Char) (v : Value) :
    goodUpd diffEnvelope e (updateEnvField e f v) := by
  unfold updateEnvField
  split_ifs
  · exact trySetQ_good _ _ _ _ fun q => by simp [diffEnvelope]
  · exact trySetQ_good _ _ _ _ fun q => by simp [diffEnvelope]
  · exact trySetQ_good _ _ _ _ fun q => by simp [diffEnvelope]
  · exact trySetQ_good _ _ _ _ fun q => by simp [diffEnvelope]
  · simp [goodUpd]

theorem updateModField_good (m : Modulation) (f : List Char) (v : Value) :
    goodUpd diffModulation m (updateModField m f v) := by
  unfold updateModField
  split_ifs
  · exact trySetQ_good _ _ _ _ fun q => by simp [diffModulation]
  · exact trySetQ_good _ _ _ _ fun q => by simp [diffModulation]
  · exact trySetQ_good _ _ _ _ fun q => by simp [diffModulation]
  · exact trySetQ_good _ _ _ _ fun q => by simp [diffModulation]
  · simp [goodUpd]

/-- Lift a payload sub-update to the containing layer. -/
theorem goodUpd_payload {β : Type} (diffP : β → β → ℕ) (l : Layer) (p : β)
    (r : Bool × β) (inj : β → Layer)
    (hr : goodUpd diffP p r)
    (hdiff : ∀ p', diffP p p' ≤ 1 → diffLayer l (inj p') ≤ 1) :
    goodUpd diffLayer l (r.1, if r.1 then inj r.2 else l) := by
  unfold goodUpd at hr ⊢
  cases hb : r.1 with
  | false => simp
  | true =>
    rw [hb] at hr
    simp only [cond] at hr ⊢
    exact hdiff r.2 hr

set_option maxHeartbeats 1000000 in
theorem updateLayerSub_good (l : Layer) (field sub : List Char) (v : Value) :
    goodUpd diffLayer l (updateLayerSub l field sub v) := by
  unfold updateLayerSub
  by_cases g1 : (field = "osc".toList && l.osc.isSome) = true
  · rw [if_pos g1]
    rcases ho : l.osc with _ | o
    · exact rfl
    · dsimp only
      exact goodUpd_payload diffOsc l o (updateOscField o sub v)
        (fun p => { l with osc := some p }) (updateOscField_good o sub v)
        (fun p' hp => by
          simp only [diffLayer, ho, diffOpt_some, dOne_self, diffEnvelope_self,
            diffOptMod_self, diffOptChirp_self, diffOptFM_self, diffOptNoise_self,
            diffOptImpulse_self]
          omega)
  rw [if_neg g1]
  by_cases g2 : (field = "chirp".toList && l.chirp.isSome) = true
  · rw [if_pos g2]
    rcases hc : l.chirp with _ | c
    · exact rfl
    · dsimp only
      exact goodUpd_payload diffChirp l c (updateChirpField c sub v)
        (fun p => { l with chirp := some p }) (updateChirpField_good c sub v)
        (fun p' hp => by
          simp only [diffLayer, hc, diffOpt_some, dOne_self, diffEnvelope_self,
            diffOptMod_self, diffOptOsc_self, diffOptFM_self, diffOptNoise_self,
            diffOptImpulse_self]
          omega)
  rw [if_neg g2]
  by_cases g3 : (field = "fm".toList && l.fm.isSome) = true
  · rw [if_pos g3]
    rcases hf : l.fm with _ | f
    · exact rfl
    · dsimp only
      exact goodUpd_payload diffFM l f (updateFMField f sub v)
        (fun p => { l with fm := some p }) (updateFMField_good f sub v)
        (fun p' hp => by
          simp only [diffLayer, hf, diffOpt_some, dOne_self, diffEnvelope_self,
            diffOptMod_self, diffOptOsc_self, diffOptChirp_self, diffOptNoise_self,
            diffOptImpulse_self]
          omega)
  rw [if_neg g3]
  by_cases g4 : (field = "noise".toList && l.noise.isSome) = true
  · rw [if_pos g4]
    rcases hn : l.noise with _ | n
    · exact rfl
    · dsimp only
      exact goodUpd_payload diffNoise l n (updateNoiseField n sub v)
        (fun p => { l with noise := some p }) (updateNoiseField_good n sub v)
        (fun p' hp => by
          simp only [diffLayer, hn, diffOpt_some, dOne_self, diffEnvelope_self,
            diffOptMod_self, diffOptOsc_self, diffOptChirp_self, diffOptFM_self,
            diffOptImpulse_self]
          omega)
  rw [if_neg g4]
  by_cases g5 : (field = "impulse".toList && l.impulse.isSome) = true
  · rw [if_pos g5]
    rcases hi : l.impulse with _ | im
    · exact rfl
    · dsimp only
      exact goodUpd_payload diffImpulse l im (updateImpulseField im sub v)
        (fun p => { l with impulse := some p }) (updateImpulseField_good im sub v)
        (fun p' hp => by
          simp only [diffLayer, hi, diffOpt_some, dOne_self, diffEnvelope_self,
            diffOptMod_self, diffOptOsc_self, diffOptChirp_self, diffOptFM_self,
            diffOptNoise_self]
          omega)
  rw [if_neg g5]
  by_cases g6 : field = "env".toList
  · rw [if_pos g6]
    dsimp only
    exact goodUpd_payload diffEnvelope l l.env (updateEnvField l.env sub v)
      (fun p => { l with env := p }) (updateEnvField_good l.env sub v)
      (fun p' hp => by
        simp only [diffLayer, dOne_self, diffOptMod_self, diffOptOsc_self,
          diffOptChirp_self, diffOptFM_self, diffOptNoise_self, diffOptImpulse_self]
        omega)
  rw [if_neg g6]
  by_cases g7 : (field = "mod".toList && l.mod.isSome) = true
  · rw [if_pos g7]
    rcases hm : l.mod with _ | m
    · exact rfl
    · dsimp only
      exact goodUpd_payload diffModulation l m (updateModField m sub v)
        (fun p => { l with mod := some p }) (updateModField_good m sub v)
        (fun p' hp => by
          simp only [diffLayer, hm, diffOpt_some, dOne_self, diffEnvelope_self,
            diffOptOsc_self, diffOptChirp_self, diffOptFM_self, diffOptNoise_self,
            diffOptImpulse_self]
          omega)
  rw [if_neg g7]
  exact rfl

theorem updateLayerField_good (l : Layer) (parts : List (List Char)) (v : Value) :
    goodUpd diffLayer l (updateLayerField l parts v) := by
  unfold updateLayerField
  cases parts with
  | nil => exact rfl
  | cons field rest =>
    dsimp only
    by_cases h1 : field = "amp".toList
    · rw [if_pos h1]
      exact trySetQ_good _ _ _ _ fun q => by simp [diffLayer]
    rw [if_neg h1]
    by_cases h2 : field = "pan".toList
    · rw [if_pos h2]
      exact trySetQ_good _ _ _ _ fun q => by simp [diffLayer]
    rw [if_neg h2]
    by_cases h3 : field = "phase".toList
    · rw [if_pos h3]
      exact trySetQ_good _ _ _ _ fun q => by simp [diffLayer]
    rw [if_neg h3]
    cases rest with
    | nil => exact rfl
    | cons sub tail => exact updateLayerSub_good l field sub v

theorem updateFxParamsField_good (fx : FX) (f : List Char) (v : Value) :
    goodUpd diffFX fx (updateFxParamsField fx f v) := by
  unfold updateFxParamsField
  split_ifs
  · exact trySetQ_good _ _ _ _ fun q => by simp [diffFX, diffFXParams]
  · exact trySetZ_good _ _ _ _ fun z => by simp [diffFX, diffFXParams]
  · exact trySetZ_good _ _ _ _ fun z => by simp [diffFX, diffFXParams]
  · exact trySetQ_good _ _ _ _ fun q => by simp [diffFX, diffFXParams]
  · exact trySetQ_good _ _ _ _ fun q => by simp [diffFX, diffFXParams]
  · exact trySetQ_good _ _ _ _ fun q => by simp [diffFX, diffFXParams]
  · exact trySetQ_good _ _ _ _ fun q => by simp [diffFX, diffFXParams]
  · exact rfl

theorem updateFxField_good (fx : FX) (parts : List (List Char)) (v : Value) :
    goodUpd diffFX fx (updateFxField fx parts v) := by
  unfold updateFxField
  cases parts with
  | nil => exact rfl
  | cons p0 rest =>
    dsimp only
    by_cases h1 : p0 = "enabled".toList
    · rw [if_pos h1]
      simp [goodUpd, diffFX, diffFXParams]
    rw [if_neg h1]
    by_cases h2 : p0 = "params".toList
    · rw [if_pos h2]
      cases rest with
      | nil => exact rfl
      | cons f tail => exact updateFxParamsField_good fx f v
    rw [if_neg h2]
    exact rfl

theorem updateLayersAt_good (parts : List (List Char)) (v : Value) (idx : ℕ)
    (ls : List Layer) :
    goodUpd (diffList diffLayer) ls (updateLayersAt parts v idx ls) := by
  induction ls generalizing idx with
  | nil => simp [updateLayersAt, goodUpd]
  | cons l rest ih =>
    cases idx with
    | zero =>
      have h := updateLayerField_good l parts v
      unfold updateLayersAt goodUpd
      dsimp only
      unfold goodUpd at h
      cases hb : (updateLayerField l parts v).1 with
      | false =>
        rw [hb] at h
        simp only [cond] at h ⊢
        rw [h]
      | true =>
        rw [hb] at h
        simp only [cond] at h ⊢
        simp [diffList, h]
    | succ n =>
      have h := ih n
      unfold updateLayersAt goodUpd
      dsimp only
      unfold goodUpd at h
      cases hb : (updateLayersAt parts v n rest).1 with
      | false =>
        rw [hb] at h
        simp only [cond] at h ⊢
        rw [h]
      | true =>
        rw [hb] at h
        simp only [cond] at h ⊢
        simp [diffList, h]

theorem updateLayersListById_good (lid : List Char) (parts : List (List Char))
    (v : Value) (ls : List Layer) :
    goodUpd (diffList diffLayer) ls (updateLayersListById lid parts v ls) := by
  induction ls with
  | nil => simp [updateLayersListById, goodUpd]
  | cons l rest ih =>
    unfold updateLayersListById
    dsimp only
    split_ifs with hid
    · have h := updateLayerField_good l parts v
      unfold goodUpd at h ⊢
      cases hb : (updateLayerField l parts v).1 with
      | false =>
        rw [hb] at h
        simp only [cond] at h ⊢
        rw [h]
      | true =>
        rw [hb] at h
        simp only [cond] at h ⊢
        simp [diffList, h]
    · unfold goodUpd at ih ⊢
      cases hb : (updateLayersListById lid parts v rest).1 with
      | false =>
        rw [hb] at ih
        simp only [cond] at ih ⊢
        rw [ih]
      | true =>
        rw [hb] at ih
        simp only [cond] at ih ⊢
        simp [diffList, ih]

theorem updateFxAt_good (parts : List (List Char)) (v : Value) (idx : ℕ)
    (fxs : List FX) :
    goodUpd (diffList diffFX) fxs (updateFxAt parts v idx fxs) := by
  induction fxs generalizing idx with
  | nil => simp [updateFxAt, goodUpd]
  | cons fx rest ih =>
    cases idx with
    | zero =>
      have h := updateFxField_good fx parts v
      unfold updateFxAt goodUpd
      dsimp only
      unfold goodUpd at h
      cases hb : (updateFxField fx parts v).1 with
      | false =>
        rw [hb] at h
        simp only [cond] at h ⊢
        rw [h]
      | true =>
        rw [hb] at h
        simp only [cond] at h ⊢
        simp [diffList, h]
    | succ n =>
      have h := ih n
      unfold updateFxAt goodUpd
      dsimp only
      unfold goodUpd at h
      cases hb : (updateFxAt parts v n rest).1 with
      | false =>
        rw [hb] at h
        simp only [cond] at h ⊢
        rw [h]
      | true =>
        rw [hb] at h
        simp only [cond] at h ⊢
        simp [diffList, h]

theorem updateFirstFxByType_good (tstr : List Char) (parts : List (List Char))
    (v : Value) (fxs : List FX) :
    goodUpd (diffList diffFX) fxs (updateFirstFxByType tstr parts v fxs) := by
  induction fxs with
  | nil => simp [updateFirstFxByType, goodUpd]
  | cons fx rest ih =>
    unfold updateFirstFxByType
    dsimp only
    split_ifs with hty
    · have h := updateFxField_good fx parts v
      unfold goodUpd at h ⊢
      cases hb : (updateFxField fx parts v).1 with
      | false =>
        rw [hb] at h
        simp only [cond] at h ⊢
        rw [h]
      | true =>
        rw [hb] at h
        simp only [cond] at h ⊢
        simp [diffList, h]
    · unfold goodUpd at ih ⊢
      cases hb : (updateFirstFxByType tstr parts v rest).1 with
      | false =>
        rw [hb] at ih
        simp only [cond] at ih ⊢
        rw [ih]
      | true =>
        rw [hb] at ih
        simp only [cond] at ih ⊢
        simp [diffList, ih]

theorem updateGlobal_good (spec : SoundSpec) (parts : List (List Char)) (v : Value) :
    goodUpd diffSpec spec (updateGlobal spec parts v) := by
  unfold updateGlobal
  cases parts with
  | nil => exact rfl
  | cons f more =>
    dsimp only
    split_ifs
    · exact trySetQ_good _ _ _ _ fun q => by simp [diffSpec]
    · simp [goodUpd, diffSpec]
    · simp [goodUpd]

/-- Lift a layers/fx-list update to the spec. -/
theorem goodUpd_speclift (spec : SoundSpec) {β : Type} (diffL : β → β → ℕ)
    (cur : β) (r : Bool × β) (inj : β → SoundSpec)
    (hr : goodUpd diffL cur r)
    (hdiff : ∀ b, diffL cur b ≤ 1 → diffSpec spec (inj b) ≤ 1) :
    goodUpd diffSpec spec (r.1, if r.1 then inj r.2 else spec) := by
  unfold goodUpd at hr ⊢
  cases hb : r.1 with
  | false => simp
  | true =>
    rw [hb] at hr
    simp only [cond] at hr ⊢
    exact hdiff r.2 hr

set_option maxHeartbeats 1600000 in
/-- C4. For every SoundSpec, path string and value,
`update_spec_from_param` either returns `true` having changed at most
the one addressed leaf field (`diffSpec ≤ 1`; zero when the new value
equals the old), or returns `false` with the spec completely unchanged.
The embedding is a total function — the Python `try/except` catches
every coercion error — so it never raises, and no branch writes more
than one leaf, so it never partially mutates. -/
theorem c4_update_one_leaf_or_unchanged (spec : SoundSpec) (path : String) (v : Value) :
    cond (update_spec_from_param spec path v).1
      (diffSpec spec (update_spec_from_param spec path v).2 ≤ 1)
      ((update_spec_from_param spec path v).2 = spec) := by
  unfold update_spec_from_param
  dsimp only
  split
  · rename_i r hbr
    split at hbr
    · split at hbr
      · rename_i pfx idx remainder heq
        by_cases hpl : pfx = "layers".toList
        · rw [if_pos hpl] at hbr
          cases hbr
          by_cases hb1 : spec.layers.length ≤ idx
          · rw [if_pos hb1]
            exact rfl
          rw [if_neg hb1]
          by_cases hb2 : remainder = []
          · rw [if_pos hb2]
            exact rfl
          rw [if_neg hb2]
          dsimp only
          exact goodUpd_speclift spec (diffList diffLayer) spec.layers
            (updateLayersAt (splitOnChar '.' remainder) v idx spec.layers)
            (fun b => { spec with layers := b })
            (updateLayersAt_good (splitOnChar '.' remainder) v idx spec.layers)
            (fun b hb => by
              simp only [diffSpec, dOne_self, diffListFX_self, diffListParam_self]
              omega)
        rw [if_neg hpl] at hbr
        by_cases hpf : pfx = "fx".toList
        · rw [if_pos hpf] at hbr
          cases hbr
          by_cases hb1 : spec.fx_chain.length ≤ idx
          · rw [if_pos hb1]
            exact rfl
          rw [if_neg hb1]
          by_cases hb2 : remainder = []
          · rw [if_pos hb2]
            exact rfl
          rw [if_neg hb2]
          dsimp only
          exact goodUpd_speclift spec (diffList diffFX) spec.fx_chain
            (updateFxAt (splitOnChar '.' remainder) v idx spec.fx_chain)
            (fun b => { spec with fx_chain := b })
            (updateFxAt_good (splitOnChar '.' remainder) v idx spec.fx_chain)
            (fun b hb => by
              simp only [diffSpec, dOne_self, diffListLayer_self, diffListParam_self]
              omega)
        rw [if_neg hpf] at hbr
        exact absurd hbr (by simp)
      · exact absurd hbr (by simp)
    · exact absurd hbr (by simp)
  · split
    · exact rfl
    · rename_i p0 rest heq
      by_cases hg : p0 = "global".toList
      · rw [if_pos hg]
        exact updateGlobal_good spec rest v
      rw [if_neg hg]
      by_cases hd : p0 = "duration".toList
      · rw [if_pos hd]
        exact trySetQ_good _ _ _ _ fun q => by simp [diffSpec]
      rw [if_neg hd]
      by_cases hly : p0 = "layers_by_id".toList
      · rw [if_pos hly]
        cases rest with
        | nil => exact rfl
        | cons lid parts =>
          dsimp only
          exact goodUpd_speclift spec (diffList diffLayer) spec.layers
            (updateLayersListById lid parts v spec.layers)
            (fun b => { spec with layers := b })
            (updateLayersListById_good lid parts v spec.layers)
            (fun b hb => by
              simp only [diffSpec, dOne_self, diffListFX_self, diffListParam_self]
              omega)
      rw [if_neg hly]
      by_cases hft : p0 = "fx_by_type".toList
      · rw [if_pos hft]
        cases rest with
        | nil => exact rfl
        | cons tstr parts =>
          dsimp only
          exact goodUpd_speclift spec (diffList diffFX) spec.fx_chain
            (updateFirstFxByType tstr parts v spec.fx_chain)
            (fun b => { spec with fx_chain := b })
            (updateFirstFxByType_good tstr parts v spec.fx_chain)
            (fun b hb => by
              simp only [diffSpec, dOne_self, diffListLayer_self, diffListParam_self]
              omega)
      rw [if_neg hft]
      exact rfl

/-! ## C8: index addressing versus id addressing -/

theorem takeWhile_append_all (p : Char → Bool) (l1 l2 : List Char)
    (h : ∀ c ∈ l1, p c = true) :
    List.takeWhile p (l1 ++ l2) = l1 ++ List.takeWhile p l2 := by
  induction l1 with
  | nil => rfl
  | cons c cs ih =>
    have hc := h c (List.mem_cons_self c cs)
    simp [List.takeWhile_cons, hc, ih fun x hx => h x (List.mem_cons_of_mem c hx)]

theorem dropWhile_append_all (p : Char → Bool) (l1 l2 : List Char)
    (h : ∀ c ∈ l1, p c = true) :
    List.dropWhile p (l1 ++ l2) = List.dropWhile p l2 := by
  induction l1 with
  | nil => rfl
  | cons c cs ih =>
    have hc := h c (List.mem_cons_self c cs)
    simp [List.dropWhile_cons, hc, ih fun x hx => h x (List.mem_cons_of_mem c hx)]

theorem stringToList_injective {s t : String} (h : s.toList = t.toList) : s = t := by
  cases s
  cases t
  exact congrArg String.mk h

theorem splitOnChar_append (sep : Char) (l1 l2 : List Char) (h : sep ∉ l1) :
    splitOnChar sep (l1 ++ sep :: l2) = l1 :: splitOnChar sep l2 := by
  induction l1 with
  | nil =>
    simp [splitOnChar]
  | cons c cs ih =>
    have hc : c ≠ sep := fun he => h (he ▸ List.mem_cons_self c cs)
    have ih' := ih fun hm => h (List.mem_cons_of_mem c hm)
    rw [List.cons_append]
    unfold splitOnChar
    rw [if_neg hc]
    rw [ih']
    cases l2 <;> rfl

/-- `matchBracket` on a well-formed `layers[<digits>].amp` path. -/
theorem matchBracket_layers_amp (istr : List Char) (hne : istr ≠ [])
    (hd : ∀ c ∈ istr, Char.isDigit c = true) :
    matchBracket ("layers".toList ++ '[' :: (istr ++ ']' :: '.' :: "amp".toList)) =
      some ("layers".toList, natOfDigits istr, "amp".toList) := by
  unfold matchBracket
  rw [takeWhile_append_all isWordChar "layers".toList _ (by decide),
    dropWhile_append_all isWordChar "layers".toList _ (by decide)]
  have h1 : List.takeWhile isWordChar ('[' :: (istr ++ ']' :: '.' :: "amp".toList)) = [] := by
    simp [List.takeWhile_cons, isWordChar]
  have h2 : List.dropWhile isWordChar ('[' :: (istr ++ ']' :: '.' :: "amp".toList)) =
      '[' :: (istr ++ ']' :: '.' :: "amp".toList) := by
    simp [List.dropWhile_cons, isWordChar]
  rw [h1, h2]
  rw [if_neg (by simp)]
  dsimp only
  rw [if_pos rfl]
  rw [takeWhile_append_all Char.isDigit istr _ hd,
    dropWhile_append_all Char.isDigit istr _ hd]
  have h3 : List.takeWhile Char.isDigit (']' :: '.' :: "amp".toList) = [] := by decide
  have h4 : List.dropWhile Char.isDigit (']' :: '.' :: "amp".toList) =
      ']' :: '.' :: "amp".toList := by decide
  rw [h3, h4, List.append_nil]
  rw [if_neg hne]
  dsimp only
  rw [if_pos rfl, if_pos rfl]
  rfl

/-- `matchBracket` never matches a `layers_by_id.` path: the word run
stops at the first dot, where the regex needs `[`. -/
theorem matchBracket_layersById (tail : List Char) :
    matchBracket ("layers_by_id".toList ++ '.' :: tail) = none := by
  unfold matchBracket
  rw [takeWhile_append_all isWordChar "layers_by_id".toList _ (by decide),
    dropWhile_append_all isWordChar "layers_by_id".toList _ (by decide)]
  have h1 : List.takeWhile isWordChar ('.' :: tail) = [] := by
    simp [List.takeWhile_cons, isWordChar]
  have h2 : List.dropWhile isWordChar ('.' :: tail) = '.' :: tail := by
    simp [List.dropWhile_cons, isWordChar]
  rw [h1, h2]
  rw [if_neg (by simp)]
  dsimp only
  rw [if_neg (by decide)]

/-- With unique ids, updating by the id of the `i`-th layer is updating
the `i`-th layer. -/
theorem updateById_eq_updateAt (layers : List Layer) (i : ℕ) (hi : i < layers.length)
    (hnd : (layers.map Layer.id).Nodup) (parts : List (List Char)) (v : Value) :
    updateLayersListById ((layers.get ⟨i, hi⟩).id).toList parts v layers =
      updateLayersAt parts v i layers := by
  induction layers generalizing i with
  | nil => exact absurd hi (by simp)
  | cons l rest ih =>
    cases i with
    | zero =>
      have hget : (l :: rest).get ⟨0, hi⟩ = l := rfl
      rw [hget]
      unfold updateLayersListById updateLayersAt
      rw [if_pos rfl]
    | succ n =>
      have hn : n < rest.length := Nat.lt_of_succ_lt_succ hi
      have hget : (l :: rest).get ⟨n + 1, hi⟩ = rest.get ⟨n, hn⟩ := rfl
      rw [hget]
      have hmem : (rest.get ⟨n, hn⟩).id ∈ rest.map Layer.id :=
        List.mem_map.mpr ⟨rest.get ⟨n, hn⟩, List.get_mem rest n hn, rfl⟩
      have hhead : l.id ∉ rest.map Layer.id := (List.nodup_cons.mp hnd).1
      have hne : l.id ≠ (rest.get ⟨n, hn⟩).id := fun he => hhead (he ▸ hmem)
      have hneL : l.id.toList ≠ ((rest.get ⟨n, hn⟩).id).toList := fun he =>
        hne (stringToList_injective he)
      unfold updateLayersListById updateLayersAt
      rw [if_neg hneL]
      rw [ih n hn (List.nodup_cons.mp hnd).2]

/-- An id matching no layer fails and leaves the list as it was. -/
theorem updateById_unknown (layers : List Layer) (lid : String)
    (h : ∀ l ∈ layers, l.id ≠ lid) (parts : List (List Char)) (v : Value) :
    updateLayersListById lid.toList parts v layers = (false, layers) := by
  induction layers with
  | nil => rfl
  | cons l rest ih =>
    have hne : l.id.toList ≠ lid.toList := fun he =>
      h l (List.mem_cons_self l rest) (stringToList_injective he)
    unfold updateLayersListById
    rw [if_neg hne, ih fun x hx => h x (List.mem_cons_of_mem l hx)]

/-- Full evaluation of a `layers[<digits>].amp` update. -/
theorem update_layers_bracket_eval (spec : SoundSpec) (v : Value) (istr : String)
    (hne : istr.toList ≠ []) (hdig : ∀ c ∈ istr.toList, Char.isDigit c = true) :
    update_spec_from_param spec ("layers[" ++ istr ++ "].amp") v =
      (if spec.layers.length ≤ natOfDigits istr.toList then (false, spec)
       else
         ((updateLayersAt ["amp".toList] v (natOfDigits istr.toList) spec.layers).1,
           if (updateLayersAt ["amp".toList] v (natOfDigits istr.toList) spec.layers).1 then
             { spec with layers :=
               (updateLayersAt ["amp".toList] v (natOfDigits istr.toList) spec.layers).2 }
           else spec)) := by
  have hpath : ("layers[" ++ istr ++ "].amp").toList =
      "layers".toList ++ '[' :: (istr.toList ++ ']' :: '.' :: "amp".toList) := by
    show ("layers[" ++ istr ++ "].amp").data = _
    rw [String.data_append, String.data_append]
    show "layers".toList ++ ['['] ++ istr.toList ++ (']' :: '.' :: "amp".toList) = _
    simp
  have hany : ((("layers[" ++ istr ++ "].amp").toList).any fun c => c = '[') = true := by
    rw [hpath]
    refine List.any_eq_true.mpr ⟨'[', ?_, by simp⟩
    simp
  unfold update_spec_from_param
  dsimp only
  rw [hany, if_pos rfl]
  rw [hpath, matchBracket_layers_amp istr.toList hne hdig]
  dsimp only
  rw [if_pos rfl]
  by_cases hle : spec.layers.length ≤ natOfDigits istr.toList
  · rw [if_pos hle, if_pos hle]
  · rw [if_neg hle, if_neg hle, if_neg (by decide : ¬("amp".toList = ([] : List Char)))]
    rw [show splitOnChar '.' "amp".toList = ["amp".toList] from by decide]

/-- Full evaluation of a `layers_by_id.<id>.amp` update (ids free of
dots). -/
theorem update_layersById_eval (spec : SoundSpec) (v : Value) (tid : String)
    (hdot : '.' ∉ tid.toList) :
    update_spec_from_param spec ("layers_by_id." ++ tid ++ ".amp") v =
      ((updateLayersListById tid.toList ["amp".toList] v spec.layers).1,
        if (updateLayersListById tid.toList ["amp".toList] v spec.layers).1 then
          { spec with layers :=
            (updateLayersListById tid.toList ["amp".toList] v spec.layers).2 }
        else spec) := by
  have hpath : ("layers_by_id." ++ tid ++ ".amp").toList =
      "layers_by_id".toList ++ '.' :: (tid.toList ++ '.' :: "amp".toList) := by
    show ("layers_by_id." ++ tid ++ ".amp").data = _
    rw [String.data_append, String.data_append]
    show "layers_by_id".toList ++ ['.'] ++ tid.toList ++ ('.' :: "amp".toList) = _
    simp
  have hsplit : splitOnChar '.'
      ("layers_by_id".toList ++ '.' :: (tid.toList ++ '.' :: "amp".toList)) =
      "layers_by_id".toList :: tid.toList :: ["amp".toList] := by
    rw [splitOnChar_append '.' _ _ (by decide)]
    rw [splitOnChar_append '.' tid.toList _ hdot]
    rw [show splitOnChar '.' "amp".toList = ["amp".toList] from by decide]
  unfold update_spec_from_param
  dsimp only
  rw [hpath]
  have hbres : (if (("layers_by_id".toList ++ '.' :: (tid.toList ++ '.' :: "amp".toList)).any
        fun c => c = '[') = true then
      match matchBracket ("layers_by_id".toList ++ '.' :: (tid.toList ++ '.' :: "amp".toList)) with
      | some (pfx, idx, remainder) =>
        if pfx = "layers".toList then
          some (
            if spec.layers.length ≤ idx then (false, spec)
            else if remainder = [] then (false, spec)
            else
              let r := updateLayersAt (splitOnChar '.' remainder) v idx spec.layers
              (r.1, if r.1 then { spec with layers := r.2 } else spec))
        else if pfx = "fx".toList then
          some (
            if spec.fx_chain.length ≤ idx then (false, spec)
            else if remainder = [] then (false, spec)
            else
              let r := updateFxAt (splitOnChar '.' remainder) v idx spec.fx_chain
              (r.1, if r.1 then { spec with fx_chain := r.2 } else spec))
        else none
      | none => none
    else none) = none := by
    by_cases hany : (("layers_by_id".toList ++ '.' :: (tid.toList ++ '.' :: "amp".toList)).any
        fun c => c = '[') = true
    · rw [if_pos hany, matchBracket_layersById]
    · rw [if_neg hany]
  rw [hbres]
  dsimp only
  rw [hsplit]
  dsimp only
  rw [if_neg (by decide : ¬("layers_by_id".toList = "global".toList)),
    if_neg (by decide : ¬("layers_by_id".toList = "duration".toList)),
    if_pos rfl]

/-- C8. Addressing the same layer by index (`layers[i].amp`) and by its
id (`layers_by_id.<id>.amp`) produces identical results — same success
flag and same resulting spec — for every value, provided the spec's
layer ids are unique (the data model guarantees it) and the id contains
no dot (a dot would split the path).  An out-of-range index, an unknown
id, and a malformed path (`layers.0.amp`) each fail returning the spec
unchanged. -/
theorem c8_index_and_id_addressing_agree (spec : SoundSpec) (i : ℕ) (v : Value)
    (istr : String) (hi : i < spec.layers.length)
    (hnd : (spec.layers.map Layer.id).Nodup)
    (hne : istr.toList ≠ [])
    (hdig : ∀ c ∈ istr.toList, Char.isDigit c = true)
    (hval : natOfDigits istr.toList = i)
    (hdot : '.' ∉ ((spec.layers.get ⟨i, hi⟩).id).toList) :
    (update_spec_from_param spec ("layers[" ++ istr ++ "].amp") v =
        update_spec_from_param spec
          ("layers_by_id." ++ (spec.layers.get ⟨i, hi⟩).id ++ ".amp") v)
      ∧ (∀ (jstr : String), jstr.toList ≠ [] →
          (∀ c ∈ jstr.toList, Char.isDigit c = true) →
          spec.layers.length ≤ natOfDigits jstr.toList →
          update_spec_from_param spec ("layers[" ++ jstr ++ "].amp") v = (false, spec))
      ∧ (∀ lid : String, '.' ∉ lid.toList → (∀ l ∈ spec.layers, l.id ≠ lid) →
          update_spec_from_param spec ("layers_by_id." ++ lid ++ ".amp") v = (false, spec))
      ∧ update_spec_from_param spec "layers.0.amp" v = (false, spec) := by
  refine ⟨?_, ?_, ?_, ?_⟩
  · rw [update_layers_bracket_eval spec v istr hne hdig,
      update_layersById_eval spec v _ hdot, hval,
      updateById_eq_updateAt spec.layers i hi hnd ["amp".toList] v,
      if_neg (Nat.not_le.mpr hi)]
  · intro jstr hjne hjdig hjle
    rw [update_layers_bracket_eval spec v jstr hjne hjdig, if_pos hjle]
  · intro lid hliddot hunknown
    rw [update_layersById_eval spec v lid hliddot,
      updateById_unknown spec.layers lid hunknown ["amp".toList] v]
    rfl
  · rfl

/-- Witness for C8 on the two-layer demo spec: index 0 versus id `a`,
out-of-range index 7, unknown id `zz`, malformed `layers.0.amp`. -/
theorem c8_index_and_id_addressing_agree_witness :
    (update_spec_from_param twoSquareSpec "layers[0].amp" (Value.num (1/2)) =
        update_spec_from_param twoSquareSpec "layers_by_id.a.amp" (Value.num (1/2)))
      ∧ update_spec_from_param twoSquareSpec "layers[7].amp" (Value.num (1/2)) =
          (false, twoSquareSpec)
      ∧ update_spec_from_param twoSquareSpec "layers_by_id.zz.amp" (Value.num (1/2)) =
          (false, twoSquareSpec)
      ∧ update_spec_from_param twoSquareSpec "layers.0.amp" (Value.num (1/2)) =
          (false, twoSquareSpec) := by
  have h := c8_index_and_id_addressing_agree twoSquareSpec 0 (Value.num (1/2)) "0"
    (by decide) (by decide) (by decide) (by decide) (by decide) (by decide)
  exact ⟨h.1, h.2.1 "7" (by decide) (by decide) (by decide),
    h.2.2.1 "zz" (by decide) (by decide), h.2.2.2⟩

/-! ## Validation / serialization roundtrip lemmas (C7) -/

theorem parseHarmonic_dump (h : Harmonic) : parseHarmonic (dumpHarmonic h) = some h := rfl

theorem parseModulation_dump (m : Modulation) :
    parseModulation (dumpModulation m) = some m := rfl

theorem parseGlobal_dump (g : GlobalSettings) : parseGlobal (dumpGlobal g) = some g := by
  cases g with
  | mk amp nrm => cases nrm <;> rfl

theorem parseFMParams_dump (f : FMParams) : parseFMParams (dumpFMParams f) = some f := rfl

theorem parseCurveD_val (c : Curve) : parseCurveD (.str (curveVal c)) = some c := by
  cases c <;> rfl

theorem parseShapeD_val (x : EnvelopeShape) : parseShapeD (.str (shapeVal x)) = some x := by
  cases x <;> rfl

theorem parseNoiseColorD_val (x : NoiseColor) :
    parseNoiseColorD (.str (noiseColorVal x)) = some x := by
  cases x <;> rfl

theorem parseImpulseKindD_val (x : ImpulseKind) :
    parseImpulseKindD (.str (impulseKindVal x)) = some x := by
  cases x <;> rfl

theorem parseFilterTypeD_val (x : FilterType) :
    parseFilterTypeD (.str (filterTypeVal x)) = some x := by
  cases x <;> rfl

theorem parseFXTypeD_val (x : FXType) : parseFXTypeD (.str (fxTypeVal x)) = some x := by
  cases x <;> rfl

theorem parseLayerTypeD_val (x : LayerType) :
    parseLayerTypeD (.str (layerTypeVal x)) = some x := by
  cases x <;> rfl

theorem parseParamKindD_val (x : ParamKind) :
    parseParamKindD (.str (paramKindVal x)) = some x := by
  cases x <;> rfl

theorem parseWaveformD_val (w : Waveform) (h : isEnumWaveform w = true) :
    parseWaveformD (.str (waveformVal w)) = some w := by
  cases w <;> first | rfl | exact Bool.noConfusion h

theorem optD_asNum_optNumDoc (o : Option ℚ) :
    optD asNum (some (optNumDoc o)) = some o := by
  cases o <;> rfl

theorem optD_asIntD_optIntDoc (o : Option ℤ) :
    optD asIntD (some (optIntDoc o)) = some o := by
  cases o with
  | none => rfl
  | some z =>
    show (asIntD (.num (z : ℚ))).map some = some (some z)
    simp [asIntD, Rat.den_intCast, Rat.num_intCast]

theorem mapMOpt_map_eq (f : β → Option α) (g : α → β) (xs : List α)
    (h : ∀ x ∈ xs, f (g x) = some x) : mapMOpt f (xs.map g) = some xs := by
  induction xs with
  | nil => rfl
  | cons x xs ih =>
    have hx := h x (List.mem_cons_self x xs)
    have hrest : ∀ y ∈ xs, f (g y) = some y := fun y hy => h y (List.mem_cons_of_mem _ hy)
    show mapMOpt f (g x :: xs.map g) = some (x :: xs)
    rw [mapMOpt, hx, ih hrest]
    rfl

theorem parseEnvelope_dump (e : Envelope) : parseEnvelope (dumpEnvelope e) = some e := by
  obtain ⟨a, d, sus, rel, sh⟩ := e
  cases sus <;> cases rel <;> cases sh <;> rfl

theorem validateEnvelope_dump (e : Envelope) (h : checkEnvelope e = true) :
    validateEnvelope (dumpEnvelope e) = some e := by
  unfold validateEnvelope
  rw [parseEnvelope_dump]
  simp [h]

theorem parseFilter_dump (f : Filter) : parseFilter (dumpFilter f) = some f := by
  obtain ⟨ty, c, q, ce, cv⟩ := f
  cases ty <;> cases ce <;> cases cv <;> rfl

theorem validateFilter_dump (f : Filter) (h : checkFilter f = true) :
    validateFilter (dumpFilter f) = some f := by
  unfold validateFilter
  rw [parseFilter_dump]
  simp [h]

theorem parseNoiseParams_dump (n : NoiseParams) :
    parseNoiseParams (dumpNoiseParams n) = some n := by
  obtain ⟨c, cs, ce, cc⟩ := n
  cases c <;> cases cs <;> cases ce <;> cases cc <;> rfl

theorem validateNoiseParams_dump (n : NoiseParams) (h : checkNoise n = true) :
    validateNoiseParams (dumpNoiseParams n) = some n := by
  unfold validateNoiseParams
  rw [parseNoiseParams_dump]
  simp [h]

theorem parseImpulseParams_dump (im : ImpulseParams) :
    parseImpulseParams (dumpImpulseParams im) = some im := by
  obtain ⟨k, w, tf⟩ := im
  cases k <;> cases tf <;> rfl

theorem validateImpulseParams_dump (im : ImpulseParams) (h : checkImpulse im = true) :
    validateImpulseParams (dumpImpulseParams im) = some im := by
  unfold validateImpulseParams
  rw [parseImpulseParams_dump]
  simp [h]

theorem validateModulation_dump (m : Modulation) (h : checkModulation m = true) :
    validateModulation (dumpModulation m) = some m := by
  unfold validateModulation
  rw [parseModulation_dump]
  simp [h]

theorem validateFMParams_dump (f : FMParams) (h : checkFM f = true) :
    validateFMParams (dumpFMParams f) = some f := by
  unfold validateFMParams
  rw [parseFMParams_dump]
  simp [h]

theorem validateHarmonic_dump (x : Harmonic) (h : checkHarmonic x = true) :
    validateHarmonic (dumpHarmonic x) = some x := by
  unfold validateHarmonic
  rw [parseHarmonic_dump]
  simp [h]

theorem parseHarmonicsField_dump (hs : Option (List Harmonic))
    (h : checkHarmonics hs = true) :
    parseHarmonicsField (some (dumpHarmonicsField hs)) = some hs := by
  cases hs with
  | none => rfl
  | some l =>
    have hall : ∀ x ∈ l, validateHarmonic (dumpHarmonic x) = some x := by
      intro x hx
      have hcx : checkHarmonic x = true := by
        simp only [checkHarmonics, optCheck, Bool.and_eq_true, List.all_eq_true] at h
        exact h.2 x hx
      exact validateHarmonic_dump x hcx
    show (mapMOpt validateHarmonic (l.map dumpHarmonic)).map some = some (some l)
    rw [mapMOpt_map_eq validateHarmonic dumpHarmonic l hall]
    rfl

theorem parseOscParams_dump (o : OscParams) (hw : isEnumWaveform o.waveform = true)
    (hh : checkHarmonics o.harmonics = true) :
    parseOscParams (dumpOscParams o) = some o := by
  obtain ⟨w, freq, det, hs⟩ := o
  have key : parseOscParams (dumpOscParams ⟨w, freq, det, hs⟩)
      = (parseWaveformD (.str (waveformVal w))).bind (fun w2 =>
        (parseHarmonicsField (some (dumpHarmonicsField hs))).bind (fun hs2 =>
        some { waveform := w2, freq := freq, detune := det, harmonics := hs2 })) := rfl
  rw [key, parseWaveformD_val w hw, parseHarmonicsField_dump hs hh]
  rfl

theorem validateOscParams_dump (o : OscParams) (h : checkOsc o = true) :
    validateOscParams (dumpOscParams o) = some o := by
  have h2 := h
  simp only [checkOsc, Bool.and_eq_true] at h2
  unfold validateOscParams
  rw [parseOscParams_dump o h2.1.1.1 h2.2]
  simp [h]

theorem parseChirpParams_dump (c : ChirpParams) (hw : isEnumWaveform c.waveform = true)
    (hh : checkHarmonics c.harmonics = true) :
    parseChirpParams (dumpChirpParams c) = some c := by
  obtain ⟨w, fs, fe, cv, vh, vd, hs⟩ := c
  have key : parseChirpParams (dumpChirpParams ⟨w, fs, fe, cv, vh, vd, hs⟩)
      = (parseWaveformD (.str (waveformVal w))).bind (fun w2 =>
        (parseCurveD (.str (curveVal cv))).bind (fun cv2 =>
        (parseHarmonicsField (some (dumpHarmonicsField hs))).bind (fun hs2 =>
        some { waveform := w2, f_start := fs, f_end := fe, curve := cv2,
               vibrato_hz := vh, vibrato_depth := vd, harmonics := hs2 }))) := rfl
  rw [key, parseWaveformD_val w hw, parseCurveD_val, parseHarmonicsField_dump hs hh]
  rfl

theorem validateChirpParams_dump (c : ChirpParams) (h : checkChirp c = true) :
    validateChirpParams (dumpChirpParams c) = some c := by
  have h2 := h
  simp only [checkChirp, Bool.and_eq_true] at h2
  unfold validateChirpParams
  rw [parseChirpParams_dump c h2.1.1.1.1.1 h2.2]
  simp [h]

theorem parseFXParams_dump (p : FXParams) : parseFXParams (dumpFXParams p) = some p := by
  obtain ⟨dr, st, ho, tm, fb, mx, tp⟩ := p
  have key : parseFXParams (dumpFXParams ⟨dr, st, ho, tm, fb, mx, tp⟩)
      = (optD asNum (some (optNumDoc dr))).bind (fun dr2 =>
        (optD asIntD (some (optIntDoc st))).bind (fun st2 =>
        (optD asIntD (some (optIntDoc ho))).bind (fun ho2 =>
        (optD asNum (some (optNumDoc tm))).bind (fun tm2 =>
        (optD asNum (some (optNumDoc fb))).bind (fun fb2 =>
        (optD asNum (some (optNumDoc mx))).bind (fun mx2 =>
        (optD asNum (some (optNumDoc tp))).bind (fun tp2 =>
        some { drive := dr2, steps := st2, hold_samples := ho2, time_ms := tm2,
               feedback := fb2, mix := mx2, target_peak := tp2 }))))))) := rfl
  rw [key, optD_asNum_optNumDoc, optD_asIntD_optIntDoc, optD_asIntD_optIntDoc,
    optD_asNum_optNumDoc, optD_asNum_optNumDoc, optD_asNum_optNumDoc, optD_asNum_optNumDoc]
  rfl

theorem validateFXParams_dump (p : FXParams) (h : checkFXParams p = true) :
    validateFXParams (dumpFXParams p) = some p := by
  unfold validateFXParams
  rw [parseFXParams_dump]
  simp [h]

theorem parseFX_dump (fx : FX) (h : checkFXParams fx.params = true) :
    parseFX (dumpFX fx) = some fx := by
  obtain ⟨ty, en, ps⟩ := fx
  have key : parseFX (dumpFX ⟨ty, en, ps⟩)
      = (parseFXTypeD (.str (fxTypeVal ty))).bind (fun ty2 =>
        (asBool (.bool en)).bind (fun en2 =>
        (validateFXParams (dumpFXParams ps)).bind (fun ps2 =>
        some { type := ty2, enabled := en2, params := ps2 }))) := rfl
  rw [key, parseFXTypeD_val, validateFXParams_dump ps h]
  cases en <;> rfl

theorem validateFX_dump (fx : FX) (h : checkFX fx = true) :
    validateFX (dumpFX fx) = some fx := by
  unfold validateFX
  rw [parseFX_dump fx h]
  simp [checkFX] at h ⊢
  simp [h]

theorem optD_val_mod (mo : Option Modulation) (h : optCheck checkModulation mo = true) :
    optD validateModulation (some (dumpOptPayload dumpModulation mo)) = some mo := by
  cases mo with
  | none => rfl
  | some m =>
    show (validateModulation (dumpModulation m)).map some = some (some m)
    rw [validateModulation_dump m h]
    rfl

theorem optD_val_filters (fo : Option (List Filter))
    (h : optCheck (fun fs => decide (fs.length ≤ 4) && fs.all checkFilter) fo = true) :
    optD (fun dv => (asArr dv).bind (mapMOpt validateFilter))
      (some (dumpFiltersField fo)) = some fo := by
  cases fo with
  | none => rfl
  | some fs =>
    have hall : ∀ x ∈ fs, validateFilter (dumpFilter x) = some x := by
      intro x hx
      have hcx : checkFilter x = true := by
        simp only [optCheck, Bool.and_eq_true, List.all_eq_true] at h
        exact h.2 x hx
      exact validateFilter_dump x hcx
    show (mapMOpt validateFilter (fs.map dumpFilter)).map some = some (some fs)
    rw [mapMOpt_map_eq validateFilter dumpFilter fs hall]
    rfl

theorem optD_val_osc (oo : Option OscParams) (h : optCheck checkOsc oo = true) :
    optD validateOscParams (some (dumpOptPayload dumpOscParams oo)) = some oo := by
  cases oo with
  | none => rfl
  | some o =>
    show (validateOscParams (dumpOscParams o)).map some = some (some o)
    rw [validateOscParams_dump o h]
    rfl

theorem optD_val_chirp (co : Option ChirpParams) (h : optCheck checkChirp co = true) :
    optD validateChirpParams (some (dumpOptPayload dumpChirpParams co)) = some co := by
  cases co with
  | none => rfl
  | some c =>
    show (validateChirpParams (dumpChirpParams c)).map some = some (some c)
    rw [validateChirpParams_dump c h]
    rfl

theorem optD_val_fm (fo : Option FMParams) (h : optCheck checkFM fo = true) :
    optD validateFMParams (some (dumpOptPayload dumpFMParams fo)) = some fo := by
  cases fo with
  | none => rfl
  | some f =>
    show (validateFMParams (dumpFMParams f)).map some = some (some f)
    rw [validateFMParams_dump f h]
    rfl

theorem optD_val_noise (no : Option NoiseParams) (h : optCheck checkNoise no = true) :
    optD validateNoiseParams (some (dumpOptPayload dumpNoiseParams no)) = some no := by
  cases no with
  | none => rfl
  | some n =>
    show (validateNoiseParams (dumpNoiseParams n)).map some = some (some n)
    rw [validateNoiseParams_dump n h]
    rfl

theorem optD_val_impulse (io : Option ImpulseParams) (h : optCheck checkImpulse io = true) :
    optD validateImpulseParams (some (dumpOptPayload dumpImpulseParams io)) = some io := by
  cases io with
  | none => rfl
  | some im =>
    show (validateImpulseParams (dumpImpulseParams im)).map some = some (some im)
    rw [validateImpulseParams_dump im h]
    rfl

theorem parseLayer_dump (l : Layer) (h : checkLayer l = true) :
    parseLayer (dumpLayer l) = some l := by
  obtain ⟨id, ty, amp, pan, env, mod, filt, phase, osc, chirp, fm, noise, imp⟩ := l
  simp only [checkLayer, Bool.and_eq_true] at h
  obtain ⟨⟨⟨⟨⟨⟨⟨⟨⟨⟨⟨h1, h2⟩, h3⟩, h4⟩, h5⟩, h6⟩, h7⟩, h8⟩, h9⟩, h10⟩, h11⟩, h12⟩ := h
  have key : parseLayer (dumpLayer ⟨id, ty, amp, pan, env, mod, filt, phase, osc, chirp,
      fm, noise, imp⟩)
      = (parseLayerTypeD (.str (layerTypeVal ty))).bind (fun ty2 =>
        (validateEnvelope (dumpEnvelope env)).bind (fun env2 =>
        (optD validateModulation (some (dumpOptPayload dumpModulation mod))).bind (fun mod2 =>
        (optD (fun dv => (asArr dv).bind (mapMOpt validateFilter))
            (some (dumpFiltersField filt))).bind (fun filt2 =>
        (optD validateOscParams (some (dumpOptPayload dumpOscParams osc))).bind (fun osc2 =>
        (optD validateChirpParams (some (dumpOptPayload dumpChirpParams chirp))).bind (fun chirp2 =>
        (optD validateFMParams (some (dumpOptPayload dumpFMParams fm))).bind (fun fm2 =>
        (optD validateNoiseParams (some (dumpOptPayload dumpNoiseParams noise))).bind (fun noise2 =>
        (optD validateImpulseParams (some (dumpOptPayload dumpImpulseParams imp))).bind (fun imp2 =>
        some { id := id, type := ty2, amp := amp, pan := pan, env := env2, mod := mod2,
               filter := filt2, phase := phase, osc := osc2, chirp := chirp2, fm := fm2,
               noise := noise2, impulse := imp2 }))))))))) := rfl
  rw [key, parseLayerTypeD_val, validateEnvelope_dump env h4, optD_val_mod mod h5,
    optD_val_filters filt h6, optD_val_osc osc h7, optD_val_chirp chirp h8,
    optD_val_fm fm h9, optD_val_noise noise h10, optD_val_impulse imp h11]
  rfl

theorem validateLayer_dump (l : Layer) (h : checkLayer l = true) :
    validateLayer (dumpLayer l) = some l := by
  unfold validateLayer
  rw [parseLayer_dump l h]
  simp [h]

theorem optD_pdefault (o : Option PDefault) :
    optD parsePDefaultD (some (dumpOptPayload dumpPDefault o)) = some o := by
  cases o with
  | none => rfl
  | some pd => cases pd <;> rfl

theorem optD_strList (o : Option (List String)) :
    optD (fun dv => (asArr dv).bind (mapMOpt asStr)) (some (dumpOptStrList o)) = some o := by
  cases o with
  | none => rfl
  | some ss =>
    show (mapMOpt asStr (ss.map Doc.str)).map some = some (some ss)
    rw [mapMOpt_map_eq asStr Doc.str ss (fun x _ => rfl)]
    rfl

theorem parseParam_dump (p : Param) : parseParam (dumpParam p) = some p := by
  obtain ⟨id, lb, kd, pth, mn, mx, st, df, opts⟩ := p
  have key : parseParam (dumpParam ⟨id, lb, kd, pth, mn, mx, st, df, opts⟩)
      = (parseParamKindD (.str (paramKindVal kd))).bind (fun kd2 =>
        (optD asNum (some (optNumDoc mn))).bind (fun mn2 =>
        (optD asNum (some (optNumDoc mx))).bind (fun mx2 =>
        (optD asNum (some (optNumDoc st))).bind (fun st2 =>
        (optD parsePDefaultD (some (dumpOptPayload dumpPDefault df))).bind (fun df2 =>
        (optD (fun dv => (asArr dv).bind (mapMOpt asStr))
            (some (dumpOptStrList opts))).bind (fun opts2 =>
        some { id := id, label := lb, kind := kd2, path := pth, min := mn2,
               max := mx2, step := st2, default := df2, options := opts2 })))))) := rfl
  rw [key, parseParamKindD_val, optD_asNum_optNumDoc, optD_asNum_optNumDoc,
    optD_asNum_optNumDoc, optD_pdefault, optD_strList]
  rfl

theorem asNatD_natCast (n : ℕ) : asNatD (.num (n : ℚ)) = some n := by
  simp [asNatD, asIntD, Rat.num_natCast, Rat.den_natCast]

theorem parseSpec_dump (s : SoundSpec) (hl : s.layers.all checkLayer = true)
    (hfx : s.fx_chain.all checkFX = true) :
    parseSpec (dumpSpec s) = some s := by
  obtain ⟨name, desc, sr, dur, seed, g, layers, fx, ps⟩ := s
  have hlayers : ∀ x ∈ layers, validateLayer (dumpLayer x) = some x := by
    intro x hx
    simp only [List.all_eq_true] at hl
    exact validateLayer_dump x (hl x hx)
  have hfxall : ∀ x ∈ fx, validateFX (dumpFX x) = some x := by
    intro x hx
    simp only [List.all_eq_true] at hfx
    exact validateFX_dump x (hfx x hx)
  have key : parseSpec (dumpSpec ⟨name, desc, sr, dur, seed, g, layers, fx, ps⟩)
      = (asNatD (.num (sr : ℚ))).bind (fun sr2 =>
        (asNatD (.num (seed : ℚ))).bind (fun seed2 =>
        (parseGlobal (dumpGlobal g)).bind (fun g2 =>
        (mapMOpt validateLayer (layers.map dumpLayer)).bind (fun layers2 =>
        (mapMOpt validateFX (fx.map dumpFX)).bind (fun fx2 =>
        (mapMOpt parseParam (ps.map dumpParam)).bind (fun ps2 =>
        some { name := name, description := desc, sample_rate := sr2, duration := dur,
               seed := seed2, global_ := g2, layers := layers2, fx_chain := fx2,
               params := ps2 })))))) := rfl
  rw [key, asNatD_natCast, asNatD_natCast, parseGlobal_dump,
    mapMOpt_map_eq validateLayer dumpLayer layers hlayers,
    mapMOpt_map_eq validateFX dumpFX fx hfxall,
    mapMOpt_map_eq parseParam dumpParam ps (fun x _ => parseParam_dump x)]
  rfl

/-- C7: validate→serialize→validate is the identity on the validated
spec — any untyped document `d` that validates to a `SoundSpec` `s`
(`SoundSpec.model_validate`), when `s` is serialized with its external
aliases (`model_dump(by_alias=True, mode='json')`, emitting the
`global` key, the `version` literal and enum value-strings), validates
again to the same `s`. -/
theorem c7_validate_dump_roundtrip (d : Doc) (s : SoundSpec)
    (h : validateSpec d = some s) : validateSpec (dumpSpec s) = some s := by
  have hv : ValidSpec s = true := by
    unfold validateSpec at h
    rcases hp : parseSpec d with _ | s0 <;> rw [hp] at h
    · exact Option.noConfusion h
    · dsimp only [Option.bind] at h
      by_cases hvs : ValidSpec s0 = true
      · rw [if_pos hvs] at h
        exact Option.some.inj h ▸ hvs
      · rw [if_neg hvs] at h
        exact Option.noConfusion h
  have hv2 := hv
  simp only [ValidSpec, Bool.and_eq_true] at hv2
  obtain ⟨⟨⟨⟨⟨⟨⟨⟨⟨⟨⟨g1, g2⟩, g3⟩, g4⟩, g5⟩, g6⟩, g7⟩, g8⟩, g9⟩, g10⟩, g11⟩, g12⟩ := hv2
  unfold validateSpec
  rw [parseSpec_dump s g7 g10]
  simp [hv]

theorem c7_validate_dump_roundtrip_witness :
    validateSpec (dumpSpec demoSpec) = some demoSpec :=
  c7_validate_dump_roundtrip (dumpSpec demoSpec) demoSpec (by with_unfolding_all rfl)

end SoundForge
